import Mathlib

/-!
# Verification of the pix_one Tenant Provisioning & Lifecycle Orchestrator

Shallow embedding of the company (tenant) provisioning service of the
`pix_one` repository:

* `pix_one/api/companies/domain/domain_service.py` (slugify, subdomain regex)
* `pix_one/api/companies/create_companies/create_companies_service.py`
  (validation, quota, lock handling, site provisioning, retry)
* `pix_one/api/companies/create_companies/provisioning_jobs.py` (pipeline)
* `pix_one/api/companies/manage/company_manage.py` (suspend/reactivate/retry)
* `pix_one/api/companies/backup/backup_jobs.py` (backup/restore jobs)

Statuses and most record fields are kept as the literal strings the Python
code uses.  External effects (the `bench` CLI, the filesystem, `pgrep`) are
modelled by explicit environment records passed to the embedded functions;
command invocations are recorded in an event trace together with the
subprocess timeout each call site passes.
-/

namespace PixOne

/-! ## Character classes and subdomain regular expression

`_SUBDOMAIN_RE = re.compile(r'^[a-z0-9]([a-z0-9-]{0,61}[a-z0-9])?$')`
(domain_service.py line 61; the same pattern is inlined in
`_validate_subdomain` in create_companies_service.py). -/

/-- Lowercase ASCII letter or ASCII digit: the class `[a-z0-9]`. -/
def isLowerAlnum (c : Char) : Bool :=
  ('a' ≤ c && c ≤ 'z') || ('0' ≤ c && c ≤ '9')

/-- The class `[a-z0-9-]`. -/
def isSlugChar (c : Char) : Bool :=
  isLowerAlnum c || c = '-'

/-- Does a string match `^[a-z0-9]([a-z0-9-]{0,61}[a-z0-9])?$`?
A match is a single char in `[a-z0-9]`, or a first char in `[a-z0-9]`,
0–61 chars in `[a-z0-9-]`, and a final char in `[a-z0-9]`
(total length 1, or 2–63). -/
def subdomainReMatch (s : String) : Bool :=
  match s.data with
  | [] => false
  | [c] => isLowerAlnum c
  | c :: rest =>
    isLowerAlnum c
      && (match rest.getLast? with
          | some d => isLowerAlnum d
          | none => false)
      && rest.dropLast.all isSlugChar
      && decide (rest.length ≤ 62)

/-! ## `_slugify` (domain_service.py lines 83–99)

```python
text = unicodedata.normalize("NFKD", text)
text = text.encode("ascii", "ignore").decode("ascii")
text = text.lower()
text = re.sub(r"[^a-z0-9\s-]", "", text)
text = re.sub(r"[\s-]+", "-", text).strip("-")
```
-/

/-- ASCII whitespace matched by Python's `\s` (after the ASCII filter only
ASCII characters remain, so the Unicode cases of `\s` are unreachable). -/
def pyIsSpace (c : Char) : Bool :=
  c.toNat = 32 || c.toNat = 9 || c.toNat = 10 || c.toNat = 13 ||
    c.toNat = 11 || c.toNat = 12

/-- ASCII lowercasing, the effect of Python `str.lower` on an
ASCII-only string. -/
def asciiLower (c : Char) : Char :=
  if 65 ≤ c.toNat && c.toNat ≤ 90 then Char.ofNat (c.toNat + 32) else c

/-- A separator for `re.sub(r"[\s-]+", "-", ...)`: whitespace or hyphen. -/
def isSep (c : Char) : Bool :=
  pyIsSpace c || c = '-'

/-- Replace each maximal run of separators by a single `'-'`
(`re.sub(r"[\s-]+", "-", text)`).  The flag records whether the previous
input character was part of a separator run already replaced. -/
def collapseGo : Bool → List Char → List Char
  | _, [] => []
  | prevSep, c :: rest =>
    if isSep c then
      if prevSep then collapseGo true rest
      else '-' :: collapseGo true rest
    else
      c :: collapseGo false rest

/-- `re.sub(r"[\s-]+", "-", text)` on the character list. -/
def collapseSeps (l : List Char) : List Char := collapseGo false l

/-- Remove trailing `'-'` characters (structural formulation of
`(l.reverse.dropWhile (· = '-')).reverse`): a character is kept unless it
is a hyphen followed only by characters that are all dropped. -/
def dropTrailingHyphens : List Char → List Char
  | [] => []
  | c :: rest =>
    let r := dropTrailingHyphens rest
    if c = '-' ∧ r.isEmpty then [] else c :: r

/-- Python `str.strip("-")`: remove leading and trailing `'-'`. -/
def stripHyphens (l : List Char) : List Char :=
  dropTrailingHyphens (l.dropWhile (· = '-'))

/-- Stages of `_slugify` after the NFKD normalization: ASCII filter
(`encode("ascii","ignore")`), lowercase, drop chars outside
`[a-z0-9\s-]`, collapse separator runs to `'-'`, strip `'-'`. -/
def slugifyCore (s : String) : String :=
  let ascii := s.data.filter (fun c => c.toNat < 128)
  let lowered := ascii.map asciiLower
  let kept := lowered.filter (fun c => isLowerAlnum c || pyIsSpace c || c = '-')
  String.mk (stripHyphens (collapseSeps kept))

/-- `_slugify` from domain_service.py.  The `unicodedata.normalize("NFKD", ·)`
step is modelled as an explicit function parameter `nfkd` (its character
table is external to the repository); every property proved below holds
for all normalizers, hence for the real one. -/
def slugify (nfkd : String → String) (text : String) : String :=
  slugifyCore (nfkd text)

/-- No two consecutive `'-'` characters. -/
def noDoubleHyphen (l : List Char) : Prop :=
  List.Chain' (fun a c => ¬(a = '-' ∧ c = '-')) l

/-! ## Python string helpers shared by the service embedding -/

/-- Python `a or b` for strings: `b` when `a` is empty (falsy). -/
def pyOr (a b : String) : String := if a = "" then b else a

/-- Does `needle` start `hay`? -/
def listStartsWith : List Char → List Char → Bool
  | _, [] => true
  | [], _ :: _ => false
  | h :: hs, n :: ns => h = n && listStartsWith hs ns

/-- Does `needle` occur inside `hay`? -/
def listContainsSub : List Char → List Char → Bool
  | [], needle => needle.isEmpty
  | h :: hs, needle => listStartsWith (h :: hs) needle || listContainsSub hs needle

/-- Python `needle in hay` (substring test). -/
def containsSubstr (hay needle : String) : Bool := listContainsSub hay.data needle.data

/-- Remove trailing characters satisfying `p` (as `dropTrailingHyphens`,
generalized: used for Python `str.strip()` / `str.rstrip(".")`). -/
def dropTrailingIf (p : Char → Bool) : List Char → List Char
  | [] => []
  | c :: rest =>
    let r := dropTrailingIf p rest
    if p c ∧ r.isEmpty then [] else c :: r

/-- Python `str.strip()`: remove leading and trailing whitespace. -/
def pyStrip (s : String) : String :=
  String.mk (dropTrailingIf pyIsSpace (s.data.dropWhile pyIsSpace))

/-- Python `str.lower()` (ASCII; the service's subdomain slugs and statuses
are ASCII, where Python and ASCII lowercasing agree). -/
def pyLower (s : String) : String := String.mk (s.data.map asciiLower)

/-- `subdomain.strip().lower()` as computed by `create_company` and
`_validate_subdomain`. -/
def normalizeSlug (s : String) : String := pyLower (pyStrip s)

/-- ASCII uppercasing, the effect of Python `str.upper` on ASCII text. -/
def asciiUpper (c : Char) : Char :=
  if 97 ≤ c.toNat && c.toNat ≤ 122 then Char.ofNat (c.toNat - 32) else c

/-! ## Data model

Records mirror the fields of the `SaaS Company`, `SaaS Subscriptions`,
`SaaS Subscription Plan` and `SaaS Site Backup` doctypes that the embedded
services read or write.  `status` / `site_status` keep the literal strings
of the Python code.  Timestamps are abstract `Option Nat` clock values:
the code only ever stores `now_datetime()` into them. -/

/-- A `SaaS Company` (tenant) record. -/
structure Company where
  name : String
  companyName : String
  companyAbbr : String
  subdomain : String
  siteName : String
  siteUrl : String
  customerId : String
  subscriptionId : String
  adminEmail : String
  adminPassword : String
  status : String
  siteStatus : String
  provisioningNotes : String
  provisioningStartedAt : Option Nat
  provisioningCompletedAt : Option Nat
  deletionRequestedAt : Option Nat
  dbName : String
  dbHost : String
  dbPort : String
deriving DecidableEq, Repr

/-- A `SaaS Subscriptions` record (the fields the services read). -/
structure Subscription where
  name : String
  customerId : String
  status : String
  planName : String
deriving DecidableEq, Repr

/-- A `SaaS Subscription Plan` record.  `maxCompanies = 0` models the unset
Frappe Int field (Python's `plan.max_companies or 1` treats 0 as unset). -/
structure Plan where
  planName : String
  maxCompanies : Nat
deriving DecidableEq, Repr

/-- The persistent record store visible to the embedded services.
`subscriptions` is ordered most-recently-created first (the code's
`order_by="creation desc"` lookups take the first match).
`reservedExtra` and `baseDomain` model the `PixOne System Settings`
single doctype. -/
structure Db where
  companies : List Company
  subscriptions : List Subscription
  plans : List Plan
  reservedExtra : List String
  baseDomain : String
deriving DecidableEq, Repr

def getCompany (db : Db) (cid : String) : Option Company :=
  db.companies.find? (fun c => c.name = cid)

def getSubscription (db : Db) (sid : String) : Option Subscription :=
  db.subscriptions.find? (fun s => s.name = sid)

def getPlan (db : Db) (p : String) : Option Plan :=
  db.plans.find? (fun pl => pl.planName = p)

/-- Apply `f` to the company named `cid` (a sequence of `db_set` calls). -/
def updateCompany (db : Db) (cid : String) (f : Company → Company) : Db :=
  { db with companies := db.companies.map (fun c => if c.name = cid then f c else c) }

/-- The statuses excluded everywhere by `["not in", ["Deleted", "Failed"]]`. -/
def isLiveStatus (s : String) : Bool := !(s = "Deleted" || s = "Failed")

/-- `_BUILTIN_RESERVED` (domain_service.py lines 23–59). -/
def builtinReserved : List String :=
  ["www", "api", "app", "apps", "m", "mobile", "wap",
   "mail", "smtp", "imap", "pop", "pop3", "mx", "email",
   "ftp", "ssh", "sftp", "vpn", "proxy", "relay", "ns", "ns1", "ns2",
   "cdn", "static", "assets", "media", "files", "uploads", "img", "images",
   "pixone", "pix", "pix_one", "frappe", "erpnext", "pixfar",
   "auth", "oauth", "sso", "saml", "login", "logout", "register",
   "signup", "signin", "account", "accounts",
   "admin", "administrator", "root", "superuser", "portal",
   "console", "control", "panel", "cp", "management",
   "dashboard", "home", "index",
   "dev", "develop", "development", "staging", "stage", "test",
   "testing", "qa", "uat", "sandbox", "demo", "preview",
   "support", "help", "helpdesk", "docs", "documentation", "kb",
   "knowledgebase", "wiki", "forum", "community",
   "blog", "news", "press", "marketing", "landing",
   "status", "health", "ping", "monitor", "metrics",
   "billing", "payment", "payments", "invoice", "invoices",
   "checkout", "cart", "shop", "store", "marketplace",
   "system", "internal", "intranet", "localhost", "local",
   "terms", "privacy", "legal", "gdpr", "compliance"]

/-- `(value or "pixone.com").strip().lower().rstrip(".")`
(`_get_base_domain`, create_companies_service.py lines 281–286). -/
def getBaseDomain (db : Db) : String :=
  let v := if db.baseDomain = "" then "pixone.com" else db.baseDomain
  String.mk (dropTrailingIf (fun c => c = '.') (pyLower (pyStrip v)).data)

/-! ## External command model

`subprocess.run(["bash", "-lc", cmd], capture_output=True, text=True,
timeout=T)` either completes with an exit code and captured stdout/stderr,
or raises `TimeoutExpired`.  The environment records the behavior of the
outside world (bench CLI, filesystem, process table); each invocation is
logged as an event carrying the timeout the call site passes. -/

/-- Outcome of one `subprocess.run` call. -/
inductive CmdResult
  | completed (code : Int) (out err : String)
  | timedOut
deriving DecidableEq, Repr

/-- One external command invocation with the subprocess timeout (seconds)
the call site passes.  `shell` is a raw `bash -lc` string (`_run`);
`bench` is a bench argument vector executed in `BENCH_PATH`
(`_run_bench`). -/
inductive CmdEvent
  | shell (cmd : String) (timeoutSec : Nat)
  | bench (args : List String) (timeoutSec : Nat)
deriving DecidableEq, Repr

/-- Database configuration (`_get_db_config`). -/
structure DbConfig where
  dbHost : String
  dbPort : String
  dbRootUser : String
  dbRootPassword : String
deriving DecidableEq, Repr

/-- The world outside the service: filesystem facts, and the observable
behavior of external commands. -/
structure Env where
  benchPathIsDir : Bool
  siteExists : Bool
  lockExists : Bool
  shell : String → CmdResult
  bench : List String → CmdResult
  dbCfg : DbConfig
  fileExists : String → Bool
  fileSizeBytes : String → Nat

/-- `BENCH_PATH` default (create_companies_service.py line 23). -/
def benchPath : String := "/workspace/development/frappe-bench"

/-- `timeout=300` hard-coded in `_run`
(create_companies_service.py line 30; company_manage.py line 20). -/
def runTimeoutSeconds : Nat := 300

/-- `_run_bench` (create_companies_service.py lines 34–40): fast-fail when
`BENCH_PATH` is not a directory, otherwise run the joined command through
`_run` (whose subprocess timeout is 300 s). -/
def runBench (env : Env) (args : List String) : CmdResult × List CmdEvent :=
  if env.benchPathIsDir then
    (env.bench args, [CmdEvent.bench args runTimeoutSeconds])
  else
    (CmdResult.completed 1 "" ("Bench path not found: " ++ benchPath), [])

/-- `_site_is_installed` (lines 58–61): `bench --site <name> list-apps`
exits 0.  A subprocess timeout raises and propagates to the caller. -/
def siteIsInstalled (env : Env) (siteName : String) :
    Except String Bool × List CmdEvent :=
  let (r, ev) := runBench env ["bench", "--site", siteName, "list-apps"]
  match r with
  | .completed code _ _ => (.ok (code = 0), ev)
  | .timedOut => (.error "TimeoutExpired: bench list-apps", ev)

/-- The pgrep command of `_clean_stale_lock` (line 79). -/
def pgrepCmd : String := "pgrep -af \x27bench .* new-site\x27 || true"

/-- `_clean_stale_lock` (lines 74–85): when the lock file exists, look for
a live `bench .* new-site` process; delete the lock (return `true`) only
when none is found.  Any exception inside — including a pgrep timeout — is
caught, logged and `false` returned.  Result: (lock deleted?, events). -/
def cleanStaleLock (env : Env) : Bool × List CmdEvent :=
  if env.lockExists then
    let ev := [CmdEvent.shell pgrepCmd runTimeoutSeconds]
    match env.shell pgrepCmd with
    | .completed _ out _ => ((pyStrip out) = "", ev)
    | .timedOut => (false, ev)
  else (false, [])

/-- The `bench new-site` argument vector (lines 135–142). -/
def newSiteCmd (siteName : String) (cfg : DbConfig) (adminPassword : String) :
    List String :=
  ["bench", "new-site", siteName,
   "--admin-password", adminPassword,
   "--db-root-username", cfg.dbRootUser,
   "--db-root-password", cfg.dbRootPassword,
   "--mariadb-user-host-login-scope", "%",
   "--force"]

/-- The `pre_cmd` shell string setting global DB config (lines 125–129;
the `shlex.quote` wrapping is not reproduced textually). -/
def preCmd (cfg : DbConfig) : String :=
  "cd " ++ benchPath ++ " && bench set-config -g db_host " ++ cfg.dbHost ++
    " && bench set-config -g db_port " ++ cfg.dbPort

/-- Result of `_provision_frappe_site`: either a raised exception
(`.error`, e.g. a subprocess `TimeoutExpired`) or the returned
`(success, message, output)` triple, plus the trace of command
invocations and whether the stale lock file was deleted. -/
structure ProvisionResult where
  outcome : Except String (Bool × String × String)
  events : List CmdEvent
  lockDeleted : Bool
deriving Repr

/-- The tail of `_provision_frappe_site` from the `pre_cmd` DB-config step
onward (lines 124–152): set global DB config, then issue `bench new-site`;
a non-zero exit whose output mentions `could not be acquired` is reported
as a lock conflict.  `ev0`/`lockDel` carry the events and lock-cleanup
outcome of the earlier partial-site handling. -/
def provisionCreateSteps (env : Env) (siteName adminPassword : String)
    (cfg : DbConfig) (ev0 : List CmdEvent) (lockDel : Bool) : ProvisionResult :=
  let evPre := [CmdEvent.shell (preCmd cfg) runTimeoutSeconds]
  match env.shell (preCmd cfg) with
  | .timedOut => ⟨.error "TimeoutExpired: bench set-config", ev0 ++ evPre, lockDel⟩
  | .completed preCode preOut preErr =>
    if preCode ≠ 0 then
      ⟨.ok (false, "Failed to set DB config: " ++ pyOr preErr preOut, ""),
        ev0 ++ evPre, lockDel⟩
    else
      let cmd := newSiteCmd siteName cfg adminPassword
      let (r, ev2) := runBench env cmd
      match r with
      | .timedOut => ⟨.error "TimeoutExpired: bench new-site",
          ev0 ++ evPre ++ ev2, lockDel⟩
      | .completed code out err =>
        if code ≠ 0 then
          if containsSubstr (pyOr err out) "could not be acquired" then
            ⟨.ok (false, "Site creation lock conflict. Please retry.", ""),
              ev0 ++ evPre ++ ev2, lockDel⟩
          else
            ⟨.ok (false, pyOr err out, ""), ev0 ++ evPre ++ ev2, lockDel⟩
        else
          ⟨.ok (true, "Site " ++ siteName ++ " created successfully", out),
            ev0 ++ evPre ++ ev2, lockDel⟩

/-- `_provision_frappe_site` (lines 90–152).  The partial-site check
`_site_exists(site_name) and not _site_is_installed(site_name)`
short-circuits: `list-apps` only runs when the site directory exists;
stale-lock cleanup only runs for a partial site (and its Boolean result is
ignored — creation proceeds either way). -/
def provisionFrappeSite (env : Env) (siteName adminPassword : String)
    (cfg : DbConfig) (overwrite : Bool) : ProvisionResult :=
  if cfg.dbRootPassword = "" then
    ⟨.ok (false,
      "DB root password not provided. Set DB_ROOT_PASSWORD env or site_config.",
      ""), [], false⟩
  else if env.siteExists then
    match siteIsInstalled env siteName with
    | (.error e, ev) => ⟨.error e, ev, false⟩
    | (.ok installed, ev0) =>
      if ¬ installed then
        if ¬ overwrite then
          ⟨.ok (false,
            "Site folder \x27" ++ siteName ++ "\x27 exists and seems partial. " ++
              "Retry with overwrite=True or manually delete the site.", ""),
            ev0, false⟩
        else
          let (lockDel, ev1) := cleanStaleLock env
          provisionCreateSteps env siteName adminPassword cfg (ev0 ++ ev1) lockDel
      else provisionCreateSteps env siteName adminPassword cfg ev0 false
  else provisionCreateSteps env siteName adminPassword cfg [] false

/-- `json.dumps(failed_apps)` for the failed-apps list (escaping of special
characters inside app names / error text is not reproduced). -/
def jsonDumpsFailed (failed : List (String × String)) : String :=
  "[" ++ String.intercalate ", "
    (failed.map (fun p =>
      "\x7b\"app\": \"" ++ p.1 ++ "\", \"error\": \"" ++ p.2 ++ "\"\x7d")) ++ "]"

/-- The loop body of `_install_apps_on_site`: returns
(installed apps, failed apps with error text) or a raised exception,
plus events.  A subprocess timeout raises, abandoning the rest. -/
def installAppsGo (env : Env) (siteName : String) :
    List String → Except String (List String × List (String × String)) × List CmdEvent
  | [] => (.ok ([], []), [])
  | app :: rest =>
    let (r, ev) := runBench env ["bench", "--site", siteName, "install-app", app]
    match r with
    | .timedOut => (.error ("TimeoutExpired: bench install-app " ++ app), ev)
    | .completed code out err =>
      match installAppsGo env siteName rest with
      | (.ok (inst, failed), evs) =>
        if code = 0 then (.ok (app :: inst, failed), ev ++ evs)
        else (.ok (inst, (app, pyOr err out) :: failed), ev ++ evs)
      | (.error e, evs) => (.error e, ev ++ evs)

/-- `_install_apps_on_site` (lines 155–185). -/
def installAppsOnSite (env : Env) (siteName : String) (apps : List String) :
    Except String (Bool × String) × List CmdEvent :=
  if apps.isEmpty then (.ok (true, "No apps to install"), [])
  else
    match installAppsGo env siteName apps with
    | (.ok (inst, failed), evs) =>
      if ¬ failed.isEmpty then
        (.ok (false, "Failed to install apps: " ++ jsonDumpsFailed failed), evs)
      else
        (.ok (true, "Installed apps: " ++ String.intercalate ", " inst), evs)
    | (.error e, evs) => (.error e, evs)

/-! ## Validation functions (create_companies_service.py) -/

/-- API response kinds produced through `ResponseFormatter`. -/
inductive Response
  | unauthorized (msg : String)
  | validationError (msg : String)
  | error (msg code : String)
  | created
  | success
  | notFound (msg : String)
  | serverError (msg : String)
  | deleted
deriving DecidableEq, Repr

/-- `_validate_subdomain` (lines 289–324): normalize, length 3–63, regex,
reserved set (builtin ∪ settings extension), and uniqueness against
non-Deleted/non-Failed companies.  Returns `(is_valid, error_message)`. -/
def validateSubdomain (db : Db) (subdomain : String) : Bool × String :=
  let slug := normalizeSlug subdomain
  if slug.length < 3 then (false, "Subdomain must be at least 3 characters.")
  else if slug.length > 63 then (false, "Subdomain cannot exceed 63 characters.")
  else if ¬ subdomainReMatch slug then
    (false, "Subdomain may only contain lowercase letters, numbers, and hyphens, " ++
      "and must start and end with a letter or number.")
  else if (builtinReserved ++ db.reservedExtra).contains slug then
    (false, "\x27" ++ slug ++ "\x27 is a reserved subdomain name.")
  else if db.companies.any (fun c => c.subdomain = slug && isLiveStatus c.status) then
    (false, "The subdomain \x27" ++ slug ++
      "\x27 is already taken. Please choose a different one.")
  else (true, "")

/-- `_validate_subscription` (lines 190–235).  Returns
`(is_valid, error_message, subscription_id)`. -/
def validateSubscription (db : Db) (userId : String)
    (subscriptionId : Option String) : Bool × String × Option String :=
  match subscriptionId with
  | some sid =>
    match getSubscription db sid with
    | none => (false, "Subscription not found", none)
    | some sub =>
      if sub.customerId ≠ userId then
        (false, "This subscription does not belong to you", none)
      else if sub.status ≠ "Active" then
        (false, "Subscription is " ++ sub.status ++
          ". Only Active subscriptions can create companies.", none)
      else (true, "", some sid)
  | none =>
    match db.subscriptions.find? (fun s =>
        s.customerId = userId && s.status = "Active") with
    | none => (false,
        "No active subscription found. Please purchase a subscription plan first.",
        none)
    | some s => (true, "", some s.name)

/-- Companies counted by `_validate_company_quota`: same subscription,
status not in `["Deleted", "Failed"]`, optionally excluding one id. -/
def countLiveCompanies (db : Db) (sid : String) (excludeId : Option String) : Nat :=
  (db.companies.filter (fun c =>
    c.subscriptionId = sid && isLiveStatus c.status &&
      (match excludeId with | some e => c.name ≠ e | none => true))).length

/-- `_validate_company_quota` (lines 238–276): `max_companies or 1`
(0 models the unset field), count live companies under the subscription,
hard-reject when the count reaches the limit. -/
def validateCompanyQuota (db : Db) (subscriptionId : String)
    (excludeCompanyId : Option String) : Bool × String :=
  match getSubscription db subscriptionId with
  | none => (false, "Quota validation error: subscription not found")
  | some sub =>
    match getPlan db sub.planName with
    | none => (false, "Quota validation error: plan not found")
    | some plan =>
      let maxCompanies := if plan.maxCompanies = 0 then 1 else plan.maxCompanies
      let existingCount := countLiveCompanies db subscriptionId excludeCompanyId
      if existingCount ≥ maxCompanies then
        (false, "Company limit reached. Your \x27" ++ plan.planName ++
          "\x27 plan allows " ++ toString maxCompanies ++
          (if maxCompanies = 1 then " company. " else " companies. ") ++
          "You currently have " ++ toString existingCount ++
          ". Please upgrade your subscription.")
      else (true, "")

/-! ## `create_company` and lifecycle endpoints -/

/-- Auto-generation of `company_abbr` (lines 406–413): first letters of up
to five words when multi-word, otherwise the first five characters
uppercased; then `re.sub(r"[^A-Z0-9]", "", ·)[:10]`. -/
def deriveAbbr (companyName : String) : String :=
  let words := ((pyStrip companyName).data.splitOnP pyIsSpace).filter
    (fun w => ¬ w.isEmpty)
  let abbr :=
    if words.length > 1 then
      (words.take 5).map (fun w => asciiUpper (w.headD ' '))
    else ((companyName.data.take 5).map asciiUpper)
  String.mk ((abbr.filter (fun c =>
    ('A' ≤ c && c ≤ 'Z') || ('0' ≤ c && c ≤ '9'))).take 10)

/-- A provisioning job enqueued onto the `long` queue
(`frappe.enqueue(..., timeout=600, ...)`). -/
structure ProvisionJob where
  companyId : String
  siteName : String
  adminPassword : String
  adminEmail : String
  customerEmail : String
  appsToInstall : List String
  queueTimeout : Nat
deriving DecidableEq, Repr

/-- Arguments of `create_company` (lines 329–338) plus the externally
chosen values: the fresh document name frappe assigns on insert and the
`secrets.token_urlsafe(16)` password used when none is supplied.  (The
HTTP layer's JSON/CSV coercion of `apps_to_install` is not modelled.) -/
structure CreateArgs where
  user : String
  companyName : String
  subdomain : String
  companyAbbr : Option String
  adminPassword : Option String
  adminEmail : Option String
  appsToInstall : List String
  subscriptionId : Option String
  newId : String
  genPassword : String
deriving Repr

/-- Outcome of an endpoint: response, resulting record store, enqueued
jobs. -/
structure OpResult where
  response : Response
  db : Db
  jobs : List ProvisionJob
deriving DecidableEq, Repr

/-- `create_company` (lines 327–511): guest check, subdomain validation,
company-name length, subscription resolution, quota check, then document
insertion (`status="Draft"`, immediately `db_set` to `"Queued"`) and
enqueueing of the provisioning job.  The transient Draft record and the
enqueue-failure fallback (lines 502–511, an external queue error) are not
separate model states. -/
def createCompany (db : Db) (a : CreateArgs) : OpResult :=
  if a.user = "Guest" then
    ⟨.unauthorized "Please login to create a company.", db, []⟩
  else if a.subdomain = "" then
    ⟨.validationError "Subdomain is required.", db, []⟩
  else
    let slug := normalizeSlug a.subdomain
    let sv := validateSubdomain db slug
    if ¬ sv.1 then ⟨.validationError sv.2, db, []⟩
    else if (pyStrip a.companyName).length < 3 then
      ⟨.validationError "Company name must be at least 3 characters.", db, []⟩
    else
      let vs := validateSubscription db a.user a.subscriptionId
      if ¬ vs.1 then ⟨.validationError vs.2.1, db, []⟩
      else
        let sid := vs.2.2.getD ""
        let q := validateCompanyQuota db sid none
        if ¬ q.1 then ⟨.validationError q.2, db, []⟩
        else
          let siteName := slug ++ "." ++ getBaseDomain db
          let siteUrl := "https://" ++ siteName
          let abbr := match a.companyAbbr with
            | some s => if s = "" then deriveAbbr a.companyName else s
            | none => deriveAbbr a.companyName
          let pw := match a.adminPassword with
            | some s => if s = "" then a.genPassword else s
            | none => a.genPassword
          let email := match a.adminEmail with
            | some s => if s = "" then a.user else s
            | none => a.user
          let newC : Company :=
            { name := a.newId, companyName := a.companyName, companyAbbr := abbr,
              subdomain := slug, siteName := siteName, siteUrl := siteUrl,
              customerId := a.user, subscriptionId := sid, adminEmail := email,
              adminPassword := pw, status := "Queued", siteStatus := "Queued",
              provisioningNotes := "", provisioningStartedAt := none,
              provisioningCompletedAt := none, deletionRequestedAt := none,
              dbName := "", dbHost := "", dbPort := "" }
          ⟨.created, { db with companies := db.companies ++ [newC] },
            [⟨a.newId, siteName, pw, email, a.user, a.appsToInstall, 600⟩]⟩

/-- `retry_failed_company` (lines 554–611): only `Failed` companies can be
retried; on success, re-queue provisioning with the stored site name
(subdomain untouched), resetting status/site_status to `Queued` and
clearing the notes. -/
def retryFailedCompany (db : Db) (companyId : String) : OpResult :=
  match getCompany db companyId with
  | none => ⟨.notFound ("Company " ++ companyId ++ " not found"), db, []⟩
  | some c =>
    if c.status ≠ "Failed" then
      ⟨.validationError "Only failed companies can be retried", db, []⟩
    else
      let adminPassword := if c.adminPassword = "" then "admin" else c.adminPassword
      let db' := updateCompany db companyId (fun x =>
        { x with
          status := "Queued", siteStatus := "Queued",
          provisioningNotes := "" })
      ⟨.success, db',
        [⟨companyId, c.siteName, adminPassword, c.adminEmail, c.customerId,
          ["erpnext"], 600⟩]⟩

/-- `retry_provisioning` (company_manage.py lines 129–156): only `Failed`
companies can be retried; sets status directly to `Provisioning` (with
`provisioning_started_at`) and re-enqueues with the stored site name.
(The `_check_permission` guard, which raises before any mutation for
unauthorized callers, is outside the model.) -/
def retryProvisioning (db : Db) (now : Nat) (companyId : String) : OpResult :=
  match getCompany db companyId with
  | none => ⟨.notFound ("Company " ++ companyId ++ " not found"), db, []⟩
  | some c =>
    if c.status ≠ "Failed" then
      ⟨.validationError "Only failed companies can be retried", db, []⟩
    else
      let adminPassword := if c.adminPassword = "" then "admin" else c.adminPassword
      let db' := updateCompany db companyId (fun x =>
        { x with
          status := "Provisioning", provisioningStartedAt := some now })
      ⟨.success, db',
        [⟨companyId, c.siteName, adminPassword, c.adminEmail, c.customerId,
          ["erpnext"], 600⟩]⟩

/-- `suspend_company` (company_manage.py lines 64–78). -/
def suspendCompany (db : Db) (companyId : String) : OpResult :=
  match getCompany db companyId with
  | none => ⟨.notFound ("Company " ++ companyId ++ " not found"), db, []⟩
  | some c =>
    if c.status = "Suspended" then
      ⟨.validationError "Company is already suspended", db, []⟩
    else
      ⟨.success, updateCompany db companyId (fun x =>
        { x with status := "Suspended" }), []⟩

/-- `reactivate_company` (company_manage.py lines 81–103): requires
`Suspended` status and, when a subscription is linked, that it is still
Active. -/
def reactivateCompany (db : Db) (companyId : String) : OpResult :=
  match getCompany db companyId with
  | none => ⟨.notFound ("Company " ++ companyId ++ " not found"), db, []⟩
  | some c =>
    if c.status ≠ "Suspended" then
      ⟨.validationError "Company is not suspended", db, []⟩
    else if c.subscriptionId ≠ "" then
      match getSubscription db c.subscriptionId with
      | some sub =>
        if sub.status ≠ "Active" then
          ⟨.validationError ("Cannot reactivate: subscription is " ++ sub.status),
            db, []⟩
        else
          ⟨.success, updateCompany db companyId (fun x =>
            { x with status := "Active" }), []⟩
      | none =>
        ⟨.validationError "Cannot reactivate: subscription is None", db, []⟩
    else
      ⟨.success, updateCompany db companyId (fun x =>
        { x with status := "Active" }), []⟩

/-- `delete_company` (lines 614–669): optionally drop the site (a drop
failure is only logged), mark the record `Deleted` with a deletion
timestamp, then physically delete the document. -/
def deleteCompany (env : Env) (db : Db) (now : Nat) (companyId : String)
    (dropSite : Bool) : OpResult × List CmdEvent :=
  match getCompany db companyId with
  | none => (⟨.notFound ("Company " ++ companyId ++ " not found"), db, []⟩, [])
  | some c =>
    let evs :=
      if dropSite ∧ env.siteExists then
        (runBench env ["bench", "drop-site", c.siteName, "--force", "--no-backup",
          "--mariadb-root-password", env.dbCfg.dbRootPassword]).2
      else []
    let dbMarked := updateCompany db companyId (fun x =>
      { x with
        status := "Deleted", deletionRequestedAt := some now,
        siteStatus := "Deleted" })
    let dbFinal := { dbMarked with
      companies := dbMarked.companies.filter (fun x => x.name ≠ companyId) }
    (⟨.deleted, dbFinal, []⟩, evs)

/-! ## The provisioning pipeline (provisioning_jobs.py) -/

/-- Result of one `provision_company_site` background run: the updated
company record, the trace of external commands, whether the stale lock
file was deleted, and whether the job re-raised at the end (Failed path).
The success / failure notification e-mails (external collaborator,
lines 89–95 and 108–115) are not modelled. -/
structure PipelineRun where
  company : Company
  events : List CmdEvent
  lockDeleted : Bool
  raised : Bool
deriving Repr

/-- The `except` branch of `provision_company_site` (lines 99–120):
status `Failed`, `provisioning_notes = f"Error: {str(e)}"`. -/
def pipelineFail (c : Company) (notes : String) (events : List CmdEvent)
    (lockDeleted : Bool) : PipelineRun :=
  ⟨{ c with status := "Failed", provisioningNotes := notes },
    events, lockDeleted, true⟩

/-- `provision_company_site` (provisioning_jobs.py lines 21–120) acting on
one company record.  Both `now_datetime()` calls are modelled by the same
clock value `now` (only presence of the timestamps is ever inspected). -/
def provisionCompanySite (env : Env) (now : Nat) (c : Company)
    (siteName adminPassword : String) (apps : List String) : PipelineRun :=
  let c1 := { c with
    status := "Provisioning", provisioningStartedAt := some now,
    siteStatus := "Creating" }
  let pr := provisionFrappeSite env siteName adminPassword env.dbCfg true
  match pr.outcome with
  | .error e =>
    pipelineFail c1 ("Error: " ++ e) pr.events pr.lockDeleted
  | .ok (success, message, _) =>
    if ¬ success then
      pipelineFail c1 ("Error: Site provisioning failed: " ++ message)
        pr.events pr.lockDeleted
    else
      let c2 := { c1 with
        siteStatus := "Active", dbName := "_" ++ siteName,
        dbHost := env.dbCfg.dbHost, dbPort := env.dbCfg.dbPort }
      let notes1 := ["Site created: " ++ message]
      if apps.isEmpty then
        ⟨{ c2 with
          status := "Active", provisioningCompletedAt := some now,
          provisioningNotes := String.intercalate "\n" notes1 },
          pr.events, pr.lockDeleted, false⟩
      else
        match installAppsOnSite env siteName apps with
        | (.error e, evs) =>
          pipelineFail c2 ("Error: " ++ e) (pr.events ++ evs) pr.lockDeleted
        | (.ok (_appSuccess, appMessage), evs) =>
          let notes2 := notes1 ++ ["Apps: " ++ appMessage]
          ⟨{ c2 with
            status := "Active", provisioningCompletedAt := some now,
            provisioningNotes := String.intercalate "\n" notes2 },
            pr.events ++ evs, pr.lockDeleted, false⟩

/-- A provisioning job picked off the queue: load the company, run the
pipeline on it.  A missing company raises on `get_doc` and the `except`
branch cannot load it either — only an error log happens. -/
def runProvisionJob (env : Env) (db : Db) (now : Nat) (job : ProvisionJob) :
    Db × List CmdEvent :=
  match getCompany db job.companyId with
  | none => (db, [])
  | some c =>
    let run := provisionCompanySite env now c job.siteName job.adminPassword
      job.appsToInstall
    (updateCompany db job.companyId (fun _ => run.company), run.events)

/-! ## Backup jobs (backup_jobs.py) -/

/-- A `SaaS Site Backup` record.  `fileUrl = none` models the field never
having been set. -/
structure Backup where
  companyId : String
  backupType : String
  status : String
  fileUrl : Option String
  fileSizeMb : Int
deriving DecidableEq, Repr

/-- Trace events of one `run_backup` run, in execution order. -/
inductive BackupEvent
  | insertRecord (status : String)
  | benchCmd (args : List String) (timeoutSec : Nat)
  | setFailed
  | setCompleted (fileUrl : String) (fileSizeMb : Int)
deriving DecidableEq, Repr

/-- `timeout=600` passed by every `_run_bench` call in backup_jobs.py. -/
def backupTimeoutSeconds : Nat := 600

/-- Python `str.splitlines` restricted to `\n` separators (the bench output
parsed here is `\n`-separated). -/
def splitLinesGo : List Char → List Char → List String
  | [], acc => [String.mk acc.reverse]
  | c :: rest, acc =>
    if c = '\n' then String.mk acc.reverse :: splitLinesGo rest []
    else splitLinesGo rest (c :: acc)

/-- Python `str.splitlines` restricted to `\n` separators (the bench
output parsed here is `\n`-separated). -/
def splitLines (s : String) : List String := splitLinesGo s.data []

/-- Python `str.endswith`. -/
def strEndsWith (s suf : String) : Bool := listStartsWith s.data.reverse suf.data.reverse

/-- The file-reference parse of `run_backup` (lines 52–57): the first line
containing `database backup` (case-insensitive) or whose strip ends with
`.sql.gz`, stripped. -/
def parseBackupLine (lines : List String) : Option String :=
  match lines with
  | [] => none
  | line :: rest =>
    if containsSubstr (pyLower line) "database backup" ||
        strEndsWith (pyStrip line) ".sql.gz" then
      some (pyStrip line)
    else parseBackupLine rest

/-- `round(os.path.getsize(p) / (1024*1024), 2)` in whole MB (the fractional
rounding is immaterial to the stated properties, which only use `≥ 0`). -/
def fileSizeMbOf (env : Env) (p : String) : Int :=
  if env.fileExists p then (env.fileSizeBytes p) / (1024 * 1024) else 0

/-- `run_backup` (backup_jobs.py lines 25–91): insert a Backup record with
status `In Progress`, run `bench --site <site> backup --with-files` with a
600 s timeout; non-zero exit → `Failed` and stop; zero exit → parse the
output for a file reference, compute its size, set `Completed`.  The
`except` branch (a raised timeout included) sets `Failed`.  The
completion notification (lines 68–85) is external.  Returns the final
Backup record and the ordered event trace. -/
def runBackup (env : Env) (companyId siteName : String) :
    Backup × List BackupEvent :=
  let b0 : Backup := ⟨companyId, "Full", "In Progress", none, 0⟩
  let ev0 := [BackupEvent.insertRecord "In Progress"]
  let cmd := ["bench", "--site", siteName, "backup", "--with-files"]
  if ¬ env.benchPathIsDir then
    -- `_run_bench` fast-fails with exit code 1 and no subprocess call
    ({ b0 with status := "Failed" }, ev0 ++ [BackupEvent.setFailed])
  else
    let ev1 := ev0 ++ [BackupEvent.benchCmd cmd backupTimeoutSeconds]
    match env.bench cmd with
    | .timedOut => ({ b0 with status := "Failed" }, ev1 ++ [BackupEvent.setFailed])
    | .completed code out _err =>
      if code ≠ 0 then
        ({ b0 with status := "Failed" }, ev1 ++ [BackupEvent.setFailed])
      else
        let fileUrl := parseBackupLine (splitLines (pyStrip out))
        let sizeMb := match fileUrl with
          | some u => fileSizeMbOf env u
          | none => 0
        -- `backup_doc.db_set("file_url", file_url or "")`
        let stored := match fileUrl with | some u => u | none => ""
        ({ b0 with
          status := "Completed", fileUrl := some stored,
          fileSizeMb := sizeMb },
          ev1 ++ [BackupEvent.setCompleted stored sizeMb])

/-! ## Reachability and the slug-uniqueness invariant -/

/-- Can a queued provisioning job for `cid` actually be in flight?  Jobs
are enqueued exactly when a company is set to `Queued`
(`create_company`, `retry_failed_company`) or `Provisioning`
(`retry_provisioning`); a job whose company no longer exists does
nothing. -/
def jobRunnable (db : Db) (cid : String) : Bool :=
  match getCompany db cid with
  | some c => c.status = "Queued" || c.status = "Provisioning"
  | none => true

/-- States of the record store reachable through the embedded endpoints
and background jobs, from any company-free initial state. -/
inductive Reachable : Db → Prop
  | init (subs : List Subscription) (plans : List Plan) (extra : List String)
      (base : String) : Reachable ⟨[], subs, plans, extra, base⟩
  | create {db : Db} {a : CreateArgs} (h : Reachable db)
      (hfresh : ∀ c ∈ db.companies, c.name ≠ a.newId) :
      Reachable (createCompany db a).db
  | provision {db : Db} {env : Env} {now : Nat} {job : ProvisionJob}
      (h : Reachable db) (hq : jobRunnable db job.companyId = true) :
      Reachable (runProvisionJob env db now job).1
  | retryFailed {db : Db} {cid : String} (h : Reachable db) :
      Reachable (retryFailedCompany db cid).db
  | retryProv {db : Db} {now : Nat} {cid : String} (h : Reachable db) :
      Reachable (retryProvisioning db now cid).db
  | del {db : Db} {env : Env} {now : Nat} {cid : String} {dropSite : Bool}
      (h : Reachable db) :
      Reachable ((deleteCompany env db now cid dropSite).1).db
  | suspendStep {db : Db} {cid : String} (h : Reachable db) :
      Reachable (suspendCompany db cid).db
  | reactivateStep {db : Db} {cid : String} (h : Reachable db) :
      Reachable (reactivateCompany db cid).db

/-- The spec invariant: no two non-Deleted/non-Failed companies hold the
same subdomain slug. -/
def slugUnique (db : Db) : Prop :=
  (db.companies.filter (fun c => isLiveStatus c.status)).Pairwise
    (fun a b => a.subdomain ≠ b.subdomain)

instance : DecidablePred slugUnique := fun db => by
  unfold slugUnique
  infer_instance

/-- Frappe primary keys: company document names are unique (enforced by
the record store on insert; `create_company` relies on it through
`frappe.get_doc`). -/
def namesUnique (db : Db) : Prop :=
  db.companies.Pairwise (fun a b => a.name ≠ b.name)

instance : DecidablePred namesUnique := fun db => by
  unfold namesUnique
  infer_instance

/-- The target of a suspension is itself non-Deleted/non-Failed (holds for
the states `suspend_company` is meant for: live tenants). -/
def suspendTargetLive (db : Db) (cid : String) : Bool :=
  match getCompany db cid with
  | some c => isLiveStatus c.status
  | none => true

/-- Is this event a module-install command
(`bench --site <site> install-app <app>`)? -/
def isInstallEvent : CmdEvent → Bool
  | .bench ("bench" :: "--site" :: _ :: "install-app" :: _) _ => true
  | _ => false

/-- The subprocess timeout an event carries. -/
def eventTimeoutSec : CmdEvent → Nat
  | .shell _ t => t
  | .bench _ t => t

/-- The backup command `run_backup` issues. -/
def backupCmd (siteName : String) : List String :=
  ["bench", "--site", siteName, "backup", "--with-files"]

/-- `timeout=300` hard-coded in `_run` of company_manage.py (line 20):
the management service's commands, its `bench doctor` health probe
included, run with a 300 s subprocess timeout. -/
def manageRunTimeoutSeconds : Nat := 300

/-- `timeout=30` of the `bench doctor` probe in
monitoring_service.py `site_health` (line 91). -/
def monitoringProbeTimeoutSeconds : Nat := 30

/-! ## Concrete scenario data used by witnesses and counterexamples -/

/-- A plan allowing a single company. -/
def demoPlan : Plan := ⟨"basic", 1⟩

/-- An active subscription of `user@example.com` on `demoPlan`. -/
def demoSub : Subscription := ⟨"SUB-1", "user@example.com", "Active", "basic"⟩

/-- Initial record store: no companies. -/
def db0 : Db := ⟨[], [demoSub], [demoPlan], [], "pixone.com"⟩

/-- First creation request: slug `acme` for `COMP-1`. -/
def argsA : CreateArgs :=
  ⟨"user@example.com", "Acme Corp", "acme", some "AC", some "pw1",
   some "admin@acme.com", ["erpnext"], some "SUB-1", "COMP-1", "gen"⟩

/-- An environment whose DB root password is unset: `_provision_frappe_site`
fails before issuing any command. -/
def envNoRootPw : Env :=
  { benchPathIsDir := true, siteExists := false, lockExists := false,
    shell := fun _ => .completed 0 "" "", bench := fun _ => .completed 0 "" "",
    dbCfg := ⟨"mariadb", "3306", "root", ""⟩,
    fileExists := fun _ => false, fileSizeBytes := fun _ => 0 }

/-- Database configuration with a root password set. -/
def cfgDemo : DbConfig := ⟨"mariadb", "3306", "root", "rootpw"⟩

/-- A healthy environment: fresh site, all commands succeed, `bench backup`
prints a parsable database-backup line. -/
def envOk : Env :=
  { benchPathIsDir := true, siteExists := false, lockExists := false,
    shell := fun _ => .completed 0 "" "",
    bench := fun args =>
      if args.contains "backup" then
        .completed 0 "backup/acme-database.sql.gz" ""
      else .completed 0 "" "",
    dbCfg := cfgDemo,
    fileExists := fun _ => true, fileSizeBytes := fun _ => 5242880 }

/-- Like `envOk` but `bench new-site` exits 1 with a lock-acquisition error
on stderr. -/
def envLockErr : Env :=
  { envOk with bench := fun args =>
      if args.contains "new-site" then
        .completed 1 "" "the lock could not be acquired on site"
      else .completed 0 "" "" }

/-- Like `envOk` but `bench new-site` exits 1 with a plain error. -/
def envBadCreate : Env :=
  { envOk with bench := fun args =>
      if args.contains "new-site" then .completed 1 "" "mysql refused"
      else .completed 0 "" "" }

/-- Like `envOk` but `bench new-site` times out. -/
def envCreateTimeout : Env :=
  { envOk with bench := fun args =>
      if args.contains "new-site" then .timedOut else .completed 0 "" "" }

/-- Like `envOk` but `bench backup` exits 1. -/
def envBackupFail : Env :=
  { envOk with bench := fun args =>
      if args.contains "backup" then .completed 1 "" "disk full"
      else .completed 0 "" "" }

/-- Like `envOk` but `bench backup` times out. -/
def envBackupTimeout : Env :=
  { envOk with bench := fun args =>
      if args.contains "backup" then .timedOut else .completed 0 "" "" }

/-- Like `envOk` but installing the app `hrms` exits 1. -/
def envBadApp : Env :=
  { envOk with bench := fun args =>
      if args.contains "install-app" ∧ args.contains "hrms" then
        .completed 1 "" "app hrms failed"
      else .completed 0 "" "" }

/-- A partial site (directory exists, `list-apps` fails), stale lock file
present, no `bench new-site` process running (pgrep prints nothing). -/
def envStaleLock : Env :=
  { envOk with
    siteExists := true, lockExists := true,
    bench := fun args =>
      if args.contains "list-apps" then .completed 1 "" "not installed"
      else .completed 0 "" "" }

/-- A partial site with a live `bench new-site` process holding the lock:
pgrep prints a process line and `bench new-site` fails with the external
tool's lock error. -/
def envLiveLock : Env :=
  { envOk with
    siteExists := true, lockExists := true,
    shell := fun cmd =>
      if cmd = pgrepCmd then .completed 0 "1234 bench retail.pixone.com new-site" ""
      else .completed 0 "" "",
    bench := fun args =>
      if args.contains "list-apps" then .completed 1 "" "not installed"
      else if args.contains "new-site" then
        .completed 1 "" "Site lock could not be acquired"
      else .completed 0 "" "" }

/-- The `SaaS Company` record of `COMP-1` right after `create_company`. -/
def compA : Company :=
  { name := "COMP-1", companyName := "Acme Corp", companyAbbr := "AC",
    subdomain := "acme", siteName := "acme.pixone.com",
    siteUrl := "https://acme.pixone.com", customerId := "user@example.com",
    subscriptionId := "SUB-1", adminEmail := "admin@acme.com",
    adminPassword := "pw1", status := "Queued", siteStatus := "Queued",
    provisioningNotes := "", provisioningStartedAt := none,
    provisioningCompletedAt := none, deletionRequestedAt := none,
    dbName := "", dbHost := "", dbPort := "" }

/-- Store after creating `COMP-1`. -/
def db1 : Db := (createCompany db0 argsA).db

/-- The provisioning job enqueued for `COMP-1`. -/
def jobA : ProvisionJob :=
  ⟨"COMP-1", "acme.pixone.com", "pw1", "admin@acme.com", "user@example.com",
   ["erpnext"], 600⟩

/-- Store after `COMP-1`'s provisioning run failed (missing root password). -/
def db2 : Db := (runProvisionJob envNoRootPw db1 0 jobA).1

/-- Second creation request: the same slug `acme`, accepted because
`COMP-1` is `Failed`. -/
def argsB : CreateArgs :=
  ⟨"user@example.com", "Beta LLC", "acme", some "BL", some "pw2",
   some "admin@beta.com", ["erpnext"], some "SUB-1", "COMP-2", "gen"⟩

/-- Store after creating `COMP-2` on the recycled slug. -/
def db3 : Db := (createCompany db2 argsB).db

/-- Store after retrying the failed `COMP-1`: two live companies now share
the subdomain `acme`. -/
def db4 : Db := (retryFailedCompany db3 "COMP-1").db

/-- The stored `SaaS Company` record of `COMP-2` inside `db3`. -/
def compB : Company :=
  { name := "COMP-2", companyName := "Beta LLC", companyAbbr := "BL",
    subdomain := "acme", siteName := "acme.pixone.com",
    siteUrl := "https://acme.pixone.com", customerId := "user@example.com",
    subscriptionId := "SUB-1", adminEmail := "admin@beta.com",
    adminPassword := "pw2", status := "Queued", siteStatus := "Queued",
    provisioningNotes := "", provisioningStartedAt := none,
    provisioningCompletedAt := none, deletionRequestedAt := none,
    dbName := "", dbHost := "", dbPort := "" }

/-- A third creation request for the slug `acme` while `COMP-2` is live. -/
def argsC : CreateArgs :=
  ⟨"user@example.com", "Gamma Inc", "acme", some "GI", some "pw3",
   some "admin@gamma.com", ["erpnext"], some "SUB-1", "COMP-3", "gen"⟩

/-- A creation request on the fresh slug `globex` (for the quota-rejection
witness: the subscription quota, not the slug, blocks it). -/
def argsD : CreateArgs :=
  ⟨"user@example.com", "Globex Corp", "globex", some "GX", some "pw4",
   some "admin@globex.com", ["erpnext"], some "SUB-1", "COMP-4", "gen"⟩

/-- A store holding one `Failed` company (for the retry scenarios). -/
def dbFailed : Db :=
  ⟨[{ compA with
      status := "Failed", siteStatus := "Queued",
      provisioningNotes := "Error: boom" }],
   [demoSub], [demoPlan], [], "pixone.com"⟩

/-- A store holding one `Active` company (for the no-side-effect retry
witness). -/
def dbActive : Db :=
  ⟨[{ compA with
      status := "Active", siteStatus := "Active" }],
   [demoSub], [demoPlan], [], "pixone.com"⟩

/-! ### Structural lemmas about the slugify stages -/

lemma mem_collapseGo {b : Bool} {l : List Char} {c : Char}
    (h : c ∈ collapseGo b l) : c = '-' ∨ (c ∈ l ∧ isSep c = false) := by
  induction l generalizing b with
  | nil => simp [collapseGo] at h
  | cons x rest ih =>
    by_cases hx : isSep x
    · cases b with
      | true =>
        simp only [collapseGo, hx, if_true, if_pos] at h
        rcases ih h with h' | ⟨hm, hs⟩
        · exact Or.inl h'
        · exact Or.inr ⟨List.mem_cons_of_mem _ hm, hs⟩
      | false =>
        simp only [collapseGo, hx, if_true, if_neg Bool.false_ne_true] at h
        rcases List.mem_cons.1 h with rfl | h'
        · exact Or.inl rfl
        · rcases ih h' with h'' | ⟨hm, hs⟩
          · exact Or.inl h''
          · exact Or.inr ⟨List.mem_cons_of_mem _ hm, hs⟩
    · simp only [collapseGo, hx, if_false, Bool.false_eq_true] at h
      rcases List.mem_cons.1 h with rfl | h'
      · exact Or.inr ⟨List.mem_cons_self _ _, by simpa using hx⟩
      · rcases ih h' with h'' | ⟨hm, hs⟩
        · exact Or.inl h''
        · exact Or.inr ⟨List.mem_cons_of_mem _ hm, hs⟩

lemma head?_collapseGo_true {l : List Char} {c : Char}
    (h : (collapseGo true l).head? = some c) : isSep c = false := by
  induction l with
  | nil => simp [collapseGo] at h
  | cons x rest ih =>
    by_cases hx : isSep x
    · simp only [collapseGo, hx, if_true, if_pos] at h
      exact ih h
    · simp only [collapseGo, hx, if_false, Bool.false_eq_true, List.head?_cons,
        Option.some.injEq] at h
      subst h
      simpa using hx

lemma chain'_collapseGo (b : Bool) (l : List Char) :
    List.Chain' (fun a c => ¬(a = '-' ∧ c = '-')) (collapseGo b l) := by
  induction l generalizing b with
  | nil => simp [collapseGo]
  | cons x rest ih =>
    by_cases hx : isSep x
    · cases b with
      | true =>
        simpa only [collapseGo, hx, if_true, if_pos] using ih true
      | false =>
        simp only [collapseGo, hx, if_true, if_neg Bool.false_ne_true]
        rw [List.chain'_cons']
        refine ⟨?_, ih true⟩
        intro y hy
        have : isSep y = false := head?_collapseGo_true hy
        intro ⟨_, hy'⟩
        subst hy'
        simp [isSep] at this
    · simp only [collapseGo, hx, if_false, Bool.false_eq_true]
      rw [List.chain'_cons']
      refine ⟨?_, ih false⟩
      intro y _ ⟨hx', _⟩
      subst hx'
      simp [isSep] at hx

lemma head?_dropHyphens {l : List Char} {c : Char}
    (h : (l.dropWhile (· = '-')).head? = some c) : c ≠ '-' := by
  induction l with
  | nil => simp [List.dropWhile] at h
  | cons x rest ih =>
    by_cases hx : x = '-'
    · rw [List.dropWhile_cons_of_pos (by simpa using hx)] at h
      exact ih h
    · rw [List.dropWhile_cons_of_neg (by simpa using hx)] at h
      simp only [List.head?_cons, Option.some.injEq] at h
      subst h
      exact hx

lemma mem_dropWhile' {p : Char → Bool} {l : List Char} {c : Char}
    (h : c ∈ l.dropWhile p) : c ∈ l := by
  induction l with
  | nil => simp [List.dropWhile] at h
  | cons x rest ih =>
    by_cases hx : p x
    · rw [List.dropWhile_cons_of_pos hx] at h
      exact List.mem_cons_of_mem _ (ih h)
    · rwa [List.dropWhile_cons_of_neg (by simpa using hx)] at h

lemma chain'_dropWhile {R : Char → Char → Prop} {p : Char → Bool} {l : List Char}
    (h : List.Chain' R l) : List.Chain' R (l.dropWhile p) := by
  induction l with
  | nil => simp [List.dropWhile]
  | cons x rest ih =>
    by_cases hx : p x
    · rw [List.dropWhile_cons_of_pos hx]
      exact ih h.tail
    · rwa [List.dropWhile_cons_of_neg (by simpa using hx)]

lemma mem_dropTrailingHyphens {l : List Char} {c : Char}
    (h : c ∈ dropTrailingHyphens l) : c ∈ l := by
  induction l with
  | nil => simp [dropTrailingHyphens] at h
  | cons x rest ih =>
    simp only [dropTrailingHyphens] at h
    split at h
    · simp at h
    · rcases List.mem_cons.1 h with rfl | h'
      · exact List.mem_cons_self _ _
      · exact List.mem_cons_of_mem _ (ih h')

lemma head?_dropTrailingHyphens {l : List Char} {c : Char}
    (h : (dropTrailingHyphens l).head? = some c) : l.head? = some c := by
  cases l with
  | nil => simp [dropTrailingHyphens] at h
  | cons x rest =>
    simp only [dropTrailingHyphens] at h
    split at h
    · simp at h
    · simp only [List.head?_cons, Option.some.injEq] at h ⊢
      exact h

lemma getLast?_dropTrailingHyphens {l : List Char} {c : Char}
    (h : (dropTrailingHyphens l).getLast? = some c) : c ≠ '-' := by
  induction l with
  | nil => simp [dropTrailingHyphens] at h
  | cons x rest ih =>
    simp only [dropTrailingHyphens] at h
    split at h
    · simp at h
    · rename_i hcond
      rcases hr : dropTrailingHyphens rest with _ | ⟨y, r'⟩
      · rw [hr] at h
        simp only [List.getLast?_singleton, Option.some.injEq] at h
        subst h
        intro hx
        rw [hr] at hcond
        simp [hx] at hcond
      · rw [hr] at h
        rw [List.getLast?_cons_cons] at h
        apply ih
        rw [hr]
        exact h

lemma chain'_dropTrailingHyphens {R : Char → Char → Prop} {l : List Char}
    (h : List.Chain' R l) : List.Chain' R (dropTrailingHyphens l) := by
  induction l with
  | nil => simp [dropTrailingHyphens]
  | cons x rest ih =>
    simp only [dropTrailingHyphens]
    split
    · exact List.chain'_nil
    · rw [List.chain'_cons']
      refine ⟨?_, ih h.tail⟩
      intro y hy
      have hy' : rest.head? = some y := head?_dropTrailingHyphens hy
      have := (List.chain'_cons'.1 h).1
      exact this y hy'

/-- Character classes of every slugify output character. -/
lemma slugifyCore_mem {s : String} {c : Char}
    (h : c ∈ (slugifyCore s).data) : isLowerAlnum c = true ∨ c = '-' := by
  simp only [slugifyCore, stripHyphens] at h
  rcases mem_collapseGo (mem_dropWhile' (mem_dropTrailingHyphens h)) with h' | ⟨hm, hs⟩
  · exact Or.inr h'
  · left
    have := List.mem_filter.1 hm
    have hK := this.2
    simp only [Bool.or_eq_true] at hK
    rcases hK with hK | hs'
    · rcases hK with hK | hK
      · exact hK
      · simp [isSep, hK] at hs
    · simp [isSep, hs'] at hs

lemma slugifyCore_head {s : String} {c : Char}
    (h : (slugifyCore s).data.head? = some c) : c ≠ '-' := by
  simp only [slugifyCore, stripHyphens] at h
  exact head?_dropHyphens (head?_dropTrailingHyphens h)

lemma slugifyCore_getLast {s : String} {c : Char}
    (h : (slugifyCore s).data.getLast? = some c) : c ≠ '-' := by
  simp only [slugifyCore, stripHyphens] at h
  exact getLast?_dropTrailingHyphens h

lemma slugifyCore_noDoubleHyphen (s : String) :
    noDoubleHyphen (slugifyCore s).data := by
  simp only [slugifyCore, stripHyphens, noDoubleHyphen]
  exact chain'_dropTrailingHyphens (chain'_dropWhile (chain'_collapseGo _ _))

lemma mem_of_mem_dropLast' {l : List Char} {c : Char}
    (h : c ∈ l.dropLast) : c ∈ l := by
  induction l with
  | nil => simp at h
  | cons x rest ih =>
    cases rest with
    | nil => simp [List.dropLast] at h
    | cons y r =>
      rw [List.dropLast_cons₂] at h
      rcases List.mem_cons.1 h with rfl | h'
      · exact List.mem_cons_self _ _
      · exact List.mem_cons_of_mem _ (ih h')

/-- If a string consists of `[a-z0-9-]` characters, starts and ends with an
alphanumeric character, and has length between 1 and 63, it matches
`_SUBDOMAIN_RE`. -/
lemma subdomainReMatch_of_props {s : String}
    (hmem : ∀ c ∈ s.data, isLowerAlnum c = true ∨ c = '-')
    (hhead : ∀ c, s.data.head? = some c → c ≠ '-')
    (hlast : ∀ c, s.data.getLast? = some c → c ≠ '-')
    (hlen1 : 1 ≤ s.length) (hlen63 : s.length ≤ 63) :
    subdomainReMatch s = true := by
  rcases hd : s.data with _ | ⟨c, rest⟩
  · simp [String.length, hd] at hlen1
  have halnum : ∀ d ∈ s.data, (s.data.head? = some d → True) →
      isLowerAlnum d = true ∨ d = '-' := fun d hm _ => hmem d hm
  have hc : isLowerAlnum c = true := by
    rcases hmem c (by rw [hd]; exact List.mem_cons_self _ _) with h | h
    · exact h
    · exact absurd h (hhead c (by rw [hd]; rfl))
  rcases hr : rest with _ | ⟨d, rest'⟩
  · simp only [subdomainReMatch, hd, hr, hc]
  · have hlastmem : (d :: rest').getLast? = some ((d :: rest').getLast (by simp)) := by
      rw [List.getLast?_eq_getLast _ (by simp)]
    set e := (d :: rest').getLast (by simp) with he
    have hlast' : s.data.getLast? = some e := by
      rw [hd, hr, List.getLast?_cons_cons, ← hr]
      rw [hr]
      exact hlastmem
    have hemem : e ∈ s.data := by
      rw [hd, hr]
      exact List.mem_cons_of_mem _ (List.getLast_mem _)
    have healnum : isLowerAlnum e = true := by
      rcases hmem e hemem with h | h
      · exact h
      · exact absurd h (hlast e hlast')
    have hall : (d :: rest').dropLast.all isSlugChar = true := by
      rw [List.all_eq_true]
      intro x hx
      have hxmem : x ∈ s.data := by
        rw [hd, hr]
        exact List.mem_cons_of_mem _ (mem_of_mem_dropLast' hx)
      rcases hmem x hxmem with h | h
      · simp [isSlugChar, h]
      · simp [isSlugChar, h]
    have hlen : (d :: rest').length ≤ 62 := by
      have : s.length = s.data.length := rfl
      rw [this, hd, hr] at hlen63
      simpa using Nat.le_of_succ_le_succ (by simpa using hlen63)
    simp only [subdomainReMatch, hd, hr, hc, hall, Bool.true_and, Bool.and_true]
    rw [hlastmem]
    simp only [List.length_cons] at hlen
    simp [healnum]
    omega

/-- C10 (amended), main structural theorem: every slugify output consists of
lowercase ASCII letters, digits and hyphens, has no leading or trailing
hyphen and no two consecutive hyphens; and when its length is between 3
and 63 it matches `_SUBDOMAIN_RE`. -/
theorem slugify_output_format (nfkd : String → String) (text : String) :
    (∀ c ∈ (slugify nfkd text).data, isLowerAlnum c = true ∨ c = '-')
    ∧ (∀ c, (slugify nfkd text).data.head? = some c → c ≠ '-')
    ∧ (∀ c, (slugify nfkd text).data.getLast? = some c → c ≠ '-')
    ∧ noDoubleHyphen (slugify nfkd text).data
    ∧ (3 ≤ (slugify nfkd text).length → (slugify nfkd text).length ≤ 63 →
        subdomainReMatch (slugify nfkd text) = true) := by
  refine ⟨fun c hc => slugifyCore_mem hc, fun c hc => slugifyCore_head hc,
    fun c hc => slugifyCore_getLast hc, slugifyCore_noDoubleHyphen _, ?_⟩
  intro h3 h63
  exact subdomainReMatch_of_props (fun c hc => slugifyCore_mem hc)
    (fun c hc => slugifyCore_head hc) (fun c hc => slugifyCore_getLast hc)
    (le_trans (by norm_num) h3) h63

/-- C10 witness: the amended theorem applied to the concrete business name
`"Pixfar Technologies Ltd."` (slug `"pixfar-technologies-ltd"`, length 23). -/
theorem slugify_output_format_witness :
    subdomainReMatch (slugify id "Pixfar Technologies Ltd.") = true :=
  (slugify_output_format id "Pixfar Technologies Ltd.").2.2.2.2 (by decide) (by decide)

/-- C10 counterexample: the slugify output for a 64-character name consists
only of `[a-z0-9-]`, is non-empty with length ≥ 3, yet does not satisfy
`_SUBDOMAIN_RE` (the regex admits at most 63 characters), refuting the
claim that every slugify output of length ≥ 3 matches the regex. -/
theorem slugify_regex_counterexample :
    3 ≤ (slugify id (String.mk (List.replicate 64 'a'))).length
    ∧ subdomainReMatch (slugify id (String.mk (List.replicate 64 'a'))) = false := by
  constructor
  · decide
  · decide

/-! ### Idempotence of `subdomain.strip().lower()` -/

lemma toNat_ofNat_valid {n : Nat} (h : n < 55296) : (Char.ofNat n).toNat = n := by
  unfold Char.ofNat
  rw [dif_pos]
  · rfl
  · exact Or.inl h

lemma asciiLower_eq_self_of_not {c : Char} (h : ¬(65 ≤ c.toNat ∧ c.toNat ≤ 90)) :
    asciiLower c = c := by
  unfold asciiLower
  rw [if_neg]
  simpa using h

lemma toNat_asciiLower_of_upper {c : Char} (h : 65 ≤ c.toNat ∧ c.toNat ≤ 90) :
    (asciiLower c).toNat = c.toNat + 32 := by
  unfold asciiLower
  rw [if_pos (by simpa using h)]
  exact toNat_ofNat_valid (by omega)

lemma asciiLower_idem (c : Char) : asciiLower (asciiLower c) = asciiLower c := by
  by_cases h : 65 ≤ c.toNat ∧ c.toNat ≤ 90
  · apply asciiLower_eq_self_of_not
    rw [toNat_asciiLower_of_upper h]
    omega
  · rw [asciiLower_eq_self_of_not h, asciiLower_eq_self_of_not h]

lemma pyIsSpace_of_toNat {c : Char} :
    pyIsSpace c = true ↔
      c.toNat = 32 ∨ c.toNat = 9 ∨ c.toNat = 10 ∨ c.toNat = 13 ∨
        c.toNat = 11 ∨ c.toNat = 12 := by
  unfold pyIsSpace
  simp [or_assoc]

lemma pyIsSpace_asciiLower (c : Char) : pyIsSpace (asciiLower c) = pyIsSpace c := by
  by_cases h : 65 ≤ c.toNat ∧ c.toNat ≤ 90
  · have hl := toNat_asciiLower_of_upper h
    have h1 : pyIsSpace (asciiLower c) = false := by
      rw [← Bool.not_eq_true, pyIsSpace_of_toNat, hl]
      omega
    have h2 : pyIsSpace c = false := by
      rw [← Bool.not_eq_true, pyIsSpace_of_toNat]
      omega
    rw [h1, h2]
  · rw [asciiLower_eq_self_of_not h]

lemma dropWhile_eq_self_of_head {p : Char → Bool} {l : List Char}
    (h : ∀ c, l.head? = some c → p c = false) : l.dropWhile p = l := by
  cases l with
  | nil => rfl
  | cons x rest =>
    rw [List.dropWhile_cons_of_neg]
    rw [h x rfl]
    exact Bool.false_ne_true

lemma dropTrailingIf_eq_self_of_getLast {p : Char → Bool} {l : List Char}
    (h : ∀ c, l.getLast? = some c → p c = false) : dropTrailingIf p l = l := by
  induction l with
  | nil => rfl
  | cons x rest ih =>
    have hstep : dropTrailingIf p (x :: rest) =
        if p x ∧ (dropTrailingIf p rest).isEmpty then []
        else x :: dropTrailingIf p rest := rfl
    cases rest with
    | nil =>
      have hx : p x = false := h x (by simp)
      rw [hstep]
      simp [hx, dropTrailingIf]
    | cons y r =>
      have hrest : dropTrailingIf p (y :: r) = y :: r := by
        apply ih
        intro c hc
        exact h c (by rw [List.getLast?_cons_cons]; exact hc)
      rw [hstep, hrest, if_neg]
      intro hcontra
      exact absurd hcontra.2 (by simp)

lemma head?_dropWhile_false {p : Char → Bool} {l : List Char} {c : Char}
    (h : (l.dropWhile p).head? = some c) : p c = false := by
  induction l with
  | nil => simp [List.dropWhile] at h
  | cons x rest ih =>
    by_cases hx : p x
    · rw [List.dropWhile_cons_of_pos hx] at h
      exact ih h
    · rw [List.dropWhile_cons_of_neg (by simpa using hx)] at h
      simp only [List.head?_cons, Option.some.injEq] at h
      subst h
      simpa using hx

lemma getLast?_dropTrailingIf_false {p : Char → Bool} {l : List Char} {c : Char}
    (h : (dropTrailingIf p l).getLast? = some c) : p c = false := by
  induction l with
  | nil => simp [dropTrailingIf] at h
  | cons x rest ih =>
    simp only [dropTrailingIf] at h
    split at h
    · simp at h
    · rename_i hcond
      rcases hr : dropTrailingIf p rest with _ | ⟨y, r'⟩
      · rw [hr] at h
        simp only [List.getLast?_singleton, Option.some.injEq] at h
        subst h
        rw [hr] at hcond
        simp only [List.isEmpty_nil, and_true] at hcond
        simpa using hcond
      · rw [hr] at h
        rw [List.getLast?_cons_cons] at h
        apply ih
        rw [hr]
        exact h

lemma head?_dropTrailingIf {p : Char → Bool} {l : List Char} {c : Char}
    (h : (dropTrailingIf p l).head? = some c) : l.head? = some c := by
  cases l with
  | nil => simp [dropTrailingIf] at h
  | cons x rest =>
    simp only [dropTrailingIf] at h
    split at h
    · simp at h
    · simp only [List.head?_cons, Option.some.injEq] at h ⊢
      exact h

lemma pyStrip_data (s : String) :
    (pyStrip s).data = dropTrailingIf pyIsSpace (s.data.dropWhile pyIsSpace) := rfl

lemma pyStrip_head {s : String} {c : Char}
    (h : (pyStrip s).data.head? = some c) : pyIsSpace c = false := by
  rw [pyStrip_data] at h
  exact head?_dropWhile_false (head?_dropTrailingIf h)

lemma pyStrip_getLast {s : String} {c : Char}
    (h : (pyStrip s).data.getLast? = some c) : pyIsSpace c = false := by
  rw [pyStrip_data] at h
  exact getLast?_dropTrailingIf_false h

lemma pyStrip_of_stripped {u : String}
    (hh : ∀ c, u.data.head? = some c → pyIsSpace c = false)
    (hl : ∀ c, u.data.getLast? = some c → pyIsSpace c = false) :
    pyStrip u = u := by
  show String.mk (dropTrailingIf pyIsSpace (u.data.dropWhile pyIsSpace)) = u
  rw [dropWhile_eq_self_of_head hh, dropTrailingIf_eq_self_of_getLast hl]

lemma pyLower_data (s : String) : (pyLower s).data = s.data.map asciiLower := rfl

lemma pyLower_pyLower (s : String) : pyLower (pyLower s) = pyLower s := by
  show String.mk ((s.data.map asciiLower).map asciiLower) = _
  rw [List.map_map]
  congr 1
  apply List.map_congr_left
  intro a _
  exact asciiLower_idem a

lemma normalizeSlug_idem (s : String) :
    normalizeSlug (normalizeSlug s) = normalizeSlug s := by
  have hstr : pyStrip (normalizeSlug s) = normalizeSlug s := by
    apply pyStrip_of_stripped
    · intro c hc
      rw [show (normalizeSlug s).data = (pyStrip s).data.map asciiLower from rfl,
        List.head?_map] at hc
      rcases ho : (pyStrip s).data.head? with _ | c0
      · rw [ho] at hc
        simp at hc
      · rw [ho] at hc
        have hc' : asciiLower c0 = c := by simpa using hc
        rw [← hc', pyIsSpace_asciiLower]
        exact pyStrip_head (s := s) ho
    · intro c hc
      rw [show (normalizeSlug s).data = (pyStrip s).data.map asciiLower from rfl,
        List.getLast?_map] at hc
      rcases ho : (pyStrip s).data.getLast? with _ | c0
      · rw [ho] at hc
        simp at hc
      · rw [ho] at hc
        have hc' : asciiLower c0 = c := by simpa using hc
        rw [← hc', pyIsSpace_asciiLower]
        exact pyStrip_getLast (s := s) ho
  show pyLower (pyStrip (normalizeSlug s)) = normalizeSlug s
  rw [hstr]
  show pyLower (pyLower (pyStrip s)) = pyLower (pyStrip s)
  exact pyLower_pyLower _

/-! ### Slug-uniqueness machinery -/

/-- The per-company relation of `slugUnique`. -/
lemma slugUnique_of_map {l : List Company} {g : Company → Company}
    (hsub : ∀ x ∈ l, (g x).subdomain = x.subdomain)
    (hlive : ∀ x ∈ l, isLiveStatus (g x).status = true →
      isLiveStatus x.status = true)
    (h : (l.filter (fun c => isLiveStatus c.status)).Pairwise
      (fun a b => a.subdomain ≠ b.subdomain)) :
    ((l.map g).filter (fun c => isLiveStatus c.status)).Pairwise
      (fun a b => a.subdomain ≠ b.subdomain) := by
  induction l with
  | nil => simp
  | cons c rest ih =>
    have hsub' : ∀ x ∈ rest, (g x).subdomain = x.subdomain :=
      fun x hx => hsub x (List.mem_cons_of_mem _ hx)
    have hlive' : ∀ x ∈ rest, isLiveStatus (g x).status = true →
        isLiveStatus x.status = true :=
      fun x hx => hlive x (List.mem_cons_of_mem _ hx)
    have hrest : (rest.filter (fun c => isLiveStatus c.status)).Pairwise
        (fun a b => a.subdomain ≠ b.subdomain) := by
      rw [List.filter_cons] at h
      split at h
      · exact (List.pairwise_cons.1 h).2
      · exact h
    rw [List.map_cons, List.filter_cons]
    split
    · rename_i hgc
      have hc : isLiveStatus c.status = true :=
        hlive c (List.mem_cons_self _ _) hgc
      rw [List.pairwise_cons]
      refine ⟨?_, ih hsub' hlive' hrest⟩
      intro y hy
      rcases List.mem_filter.1 hy with ⟨hym, hylive⟩
      rcases List.mem_map.1 hym with ⟨x, hxm, rfl⟩
      have hxlive := hlive' x hxm hylive
      have hxf : x ∈ rest.filter (fun c => isLiveStatus c.status) :=
        List.mem_filter.2 ⟨hxm, hxlive⟩
      have hcf : (List.filter (fun c => isLiveStatus c.status) (c :: rest)).Pairwise
          (fun a b => a.subdomain ≠ b.subdomain) := h
      rw [List.filter_cons, if_pos hc] at hcf
      have hne := (List.pairwise_cons.1 hcf).1 x hxf
      rw [hsub c (List.mem_cons_self _ _), hsub' x hxm]
      exact hne
    · exact ih hsub' hlive' hrest

lemma slugUnique_updateCompany {db : Db} {cid : String} {f : Company → Company}
    (hsub : ∀ x ∈ db.companies, x.name = cid → (f x).subdomain = x.subdomain)
    (hlive : ∀ x ∈ db.companies, x.name = cid →
      isLiveStatus (f x).status = true → isLiveStatus x.status = true)
    (h : slugUnique db) : slugUnique (updateCompany db cid f) := by
  unfold slugUnique updateCompany at *
  apply slugUnique_of_map ?_ ?_ h
  · intro x hx
    by_cases hn : x.name = cid
    · rw [if_pos hn]
      exact hsub x hx hn
    · rw [if_neg hn]
  · intro x hx
    by_cases hn : x.name = cid
    · rw [if_pos hn]
      exact hlive x hx hn
    · rw [if_neg hn]
      exact id

lemma getCompany_name {db : Db} {cid : String} {c : Company}
    (hc : getCompany db cid = some c) : c.name = cid := by
  have := List.find?_some hc
  simpa using this

lemma getCompany_mem {db : Db} {cid : String} {c : Company}
    (hc : getCompany db cid = some c) : c ∈ db.companies :=
  List.mem_of_find?_eq_some hc

lemma eq_of_getCompany {db : Db} {cid : String} {c x : Company}
    (hu : namesUnique db) (hc : getCompany db cid = some c)
    (hx : x ∈ db.companies) (hname : x.name = cid) : x = c := by
  by_contra hne
  have hsymm : Symmetric (fun a b : Company => a.name ≠ b.name) :=
    fun _ _ hab => fun hba => hab hba.symm
  have := hu.forall hsymm hx (getCompany_mem hc) hne
  exact this (hname.trans (getCompany_name hc).symm)

lemma provisionCompanySite_subdomain (env : Env) (now : Nat) (c : Company)
    (siteName adminPassword : String) (apps : List String) :
    (provisionCompanySite env now c siteName adminPassword apps).company.subdomain
      = c.subdomain := by
  simp only [provisionCompanySite, pipelineFail]
  rcases h : (provisionFrappeSite env siteName adminPassword env.dbCfg true).outcome
    with e | ⟨success, message, outp⟩
  · simp [h]
  · simp only [h]
    split
    · rfl
    · split
      · rfl
      · rcases hi : installAppsOnSite env siteName apps with ⟨r, evs⟩
        rcases r with e | ⟨ok, msg⟩ <;> simp [hi]

lemma validateSubdomain_not_taken {db : Db} {s : String}
    (h : (validateSubdomain db s).1 = true) :
    ∀ c ∈ db.companies, isLiveStatus c.status = true →
      c.subdomain ≠ normalizeSlug s := by
  intro c hc hl heq
  simp only [validateSubdomain] at h
  split at h
  · exact absurd h (by simp)
  split at h
  · exact absurd h (by simp)
  split at h
  · exact absurd h (by simp)
  split at h
  · exact absurd h (by simp)
  split at h
  · exact absurd h (by simp)
  · rename_i htaken
    apply htaken
    rw [List.any_eq_true]
    exact ⟨c, hc, by rw [heq] at *; simp [hl]⟩

/-- Every run of `create_company` either rejects (store untouched, nothing
enqueued, no `created` response) or passes all validations and appends one
new `Queued` company carrying the normalized slug. -/
lemma createCompany_cases (db : Db) (a : CreateArgs) :
    ((createCompany db a).db = db ∧ (createCompany db a).jobs = []
      ∧ (createCompany db a).response ≠ .created)
    ∨ ((validateSubdomain db (normalizeSlug a.subdomain)).1 = true
      ∧ ∃ newC : Company,
          newC.subdomain = normalizeSlug a.subdomain
          ∧ newC.status = "Queued"
          ∧ (createCompany db a).db = { db with companies := db.companies ++ [newC] }
          ∧ (createCompany db a).response = .created) := by
  simp only [createCompany]
  split
  · exact Or.inl ⟨rfl, rfl, fun h => nomatch h⟩
  split
  · exact Or.inl ⟨rfl, rfl, fun h => nomatch h⟩
  split
  · exact Or.inl ⟨rfl, rfl, fun h => nomatch h⟩
  split
  · exact Or.inl ⟨rfl, rfl, fun h => nomatch h⟩
  split
  · exact Or.inl ⟨rfl, rfl, fun h => nomatch h⟩
  split
  · exact Or.inl ⟨rfl, rfl, fun h => nomatch h⟩
  · rename_i hsv _ _ _
    refine Or.inr ⟨by simpa using hsv, _, rfl, rfl, rfl, rfl⟩

lemma slugUnique_createCompany (db : Db) (a : CreateArgs)
    (h : slugUnique db) : slugUnique (createCompany db a).db := by
  rcases createCompany_cases db a with ⟨hdb, _, _⟩ | ⟨hsv, newC, hsub, hstat, hdb, _⟩
  · rw [hdb]
    exact h
  · rw [hdb]
    unfold slugUnique at *
    simp only [List.filter_append]
    rw [List.pairwise_append]
    refine ⟨h, List.Pairwise.sublist (List.filter_sublist _)
      (List.pairwise_singleton _ _), ?_⟩
    intro x hx y hy
    have hynew : y = newC := by
      rcases List.mem_filter.1 hy with ⟨hym, _⟩
      simpa using hym
    subst hynew
    rcases List.mem_filter.1 hx with ⟨hxm, hxlive⟩
    have := validateSubdomain_not_taken hsv x hxm hxlive
    rw [normalizeSlug_idem] at this
    rw [hsub]
    exact this

lemma isLiveStatus_of_jobRunnable {db : Db} {cid : String} {c : Company}
    (hc : getCompany db cid = some c) (hq : jobRunnable db cid = true) :
    isLiveStatus c.status = true := by
  unfold jobRunnable at hq
  rw [hc] at hq
  have hq' : c.status = "Queued" ∨ c.status = "Provisioning" := by simpa using hq
  rcases hq' with h | h <;> rw [h] <;> rfl

lemma slugUnique_runProvisionJob (env : Env) (db : Db) (now : Nat)
    (job : ProvisionJob) (hu : namesUnique db)
    (hq : jobRunnable db job.companyId = true)
    (h : slugUnique db) : slugUnique (runProvisionJob env db now job).1 := by
  unfold runProvisionJob
  rcases hc : getCompany db job.companyId with _ | c
  · exact h
  · apply slugUnique_updateCompany ?_ ?_ h
    · intro x hx hname
      rw [provisionCompanySite_subdomain]
      rw [eq_of_getCompany hu hc hx hname]
    · intro x hx hname _
      rw [eq_of_getCompany hu hc hx hname]
      exact isLiveStatus_of_jobRunnable hc hq

lemma slugUnique_deleteCompany (env : Env) (db : Db) (now : Nat)
    (cid : String) (dropSite : Bool) (h : slugUnique db) :
    slugUnique ((deleteCompany env db now cid dropSite).1).db := by
  unfold deleteCompany
  rcases hc : getCompany db cid with _ | c
  · exact h
  · have hmark : slugUnique (updateCompany db cid (fun x =>
        { x with
          status := "Deleted", deletionRequestedAt := some now,
          siteStatus := "Deleted" })) := by
      apply slugUnique_updateCompany ?_ ?_ h
      · intro x _ _
        rfl
      · intro x _ _ hlive
        exact absurd hlive (by simp [isLiveStatus])
    unfold slugUnique at hmark ⊢
    exact List.Pairwise.sublist
      (List.Sublist.filter _ (List.filter_sublist _)) hmark

lemma slugUnique_suspendCompany (db : Db) (cid : String)
    (hu : namesUnique db) (hpre : suspendTargetLive db cid = true)
    (h : slugUnique db) : slugUnique (suspendCompany db cid).db := by
  unfold suspendCompany
  rcases hc : getCompany db cid with _ | c
  · exact h
  · dsimp only
    split
    · exact h
    · apply slugUnique_updateCompany ?_ ?_ h
      · intro x _ _
        rfl
      · intro x hx hname _
        rw [eq_of_getCompany hu hc hx hname]
        unfold suspendTargetLive at hpre
        rw [hc] at hpre
        exact hpre

lemma slugUnique_reactivateCompany (db : Db) (cid : String)
    (hu : namesUnique db) (h : slugUnique db) :
    slugUnique (reactivateCompany db cid).db := by
  unfold reactivateCompany
  rcases hc : getCompany db cid with _ | c
  · exact h
  · dsimp only
    have hupd : c.status = "Suspended" →
        slugUnique (updateCompany db cid (fun x =>
          { x with status := "Active" })) := by
      intro hs
      apply slugUnique_updateCompany ?_ ?_ h
      · intro x _ _
        rfl
      · intro x hx hname _
        rw [eq_of_getCompany hu hc hx hname, hs]
        rfl
    split
    · exact h
    · rename_i hns
      have hs : c.status = "Suspended" := by
        by_contra hne
        exact hns (by simpa using hne)
      split
      · rcases hsub : getSubscription db c.subscriptionId with _ | sub
        · simp only [hsub]
          exact h
        · simp only [hsub]
          split
          · exact h
          · exact hupd hs
      · exact hupd hs

/-- C1 counterexample: a reachable state in which two non-Deleted/non-Failed
tenants hold the subdomain `acme`.  Trace: create `COMP-1` on `acme`;
its provisioning run fails (tenant `Failed`); create `COMP-2` on the now
reusable slug `acme`; retry the failed `COMP-1` — the retry re-queues the
tenant with its old slug without re-validation, so `COMP-1` (`Queued`)
and `COMP-2` (`Queued`) both live on `acme`.  This refutes the claim that
retry preserves the uniqueness invariant. -/
theorem slug_invariant_counterexample :
    Reachable db4 ∧ ¬ slugUnique db4 := by
  constructor
  · have h0 : Reachable db0 := Reachable.init _ _ _ _
    have h1 : Reachable db1 := Reachable.create h0 (by decide)
    have h2 : Reachable db2 :=
      @Reachable.provision db1 envNoRootPw 0 jobA h1 (by decide)
    have h3 : Reachable db3 := Reachable.create h2 (by decide)
    exact Reachable.retryFailed h3
  · decide

/-- C1 (amended): `create_company` rejects a slug held by any
non-Deleted/non-Failed tenant (store untouched, nothing enqueued), and the
operations other than retry preserve slug uniqueness from the states they
are intended for: creation always; provisioning jobs when run for a
`Queued`/`Provisioning` tenant; deletion always; suspension of a
non-Failed tenant; reactivation always (company names unique, as the
record store enforces).  Retrying a `Failed` tenant re-uses its slug
without re-validation and can violate the invariant
(`slug_invariant_counterexample`). -/
theorem slug_invariant_amended :
    (∀ db a, slugUnique db → slugUnique (createCompany db a).db)
    ∧ (∀ (db : Db) (a : CreateArgs),
        (db.companies.any (fun c =>
          c.subdomain = normalizeSlug a.subdomain && isLiveStatus c.status)) = true →
        (createCompany db a).db = db ∧ (createCompany db a).jobs = []
          ∧ (createCompany db a).response ≠ .created)
    ∧ (∀ env db now job, namesUnique db → jobRunnable db job.companyId = true →
        slugUnique db → slugUnique (runProvisionJob env db now job).1)
    ∧ (∀ env db now cid dropSite, slugUnique db →
        slugUnique ((deleteCompany env db now cid dropSite).1).db)
    ∧ (∀ db cid, namesUnique db → suspendTargetLive db cid = true →
        slugUnique db → slugUnique (suspendCompany db cid).db)
    ∧ (∀ db cid, namesUnique db → slugUnique db →
        slugUnique (reactivateCompany db cid).db) := by
  refine ⟨slugUnique_createCompany, ?_, slugUnique_runProvisionJob,
    slugUnique_deleteCompany, slugUnique_suspendCompany,
    slugUnique_reactivateCompany⟩
  intro db a htaken
  rcases createCompany_cases db a with ⟨hdb, hjobs, hresp⟩ | ⟨hsv, _, _, _, _, _⟩
  · exact ⟨hdb, hjobs, hresp⟩
  · exfalso
    rcases List.any_eq_true.1 htaken with ⟨c, hc, hcond⟩
    have hcond' : c.subdomain = normalizeSlug a.subdomain ∧
        isLiveStatus c.status = true := by simpa using hcond
    rcases hcond' with ⟨hslug, hlive⟩
    exact validateSubdomain_not_taken hsv c hc hlive
      (by rw [normalizeSlug_idem]; simpa using hslug)

/-- C1 witness for the amended theorem: creating `COMP-1` on the fresh
slug `acme` keeps the invariant, and a third creation attempt on `acme`
while `COMP-2` is live is rejected without touching the store. -/
theorem slug_invariant_amended_witness :
    slugUnique (createCompany db0 argsA).db
    ∧ (createCompany db3 argsC).db = db3
    ∧ (createCompany db3 argsC).jobs = []
    ∧ (createCompany db3 argsC).response ≠ .created :=
  ⟨slug_invariant_amended.1 db0 argsA (by decide),
   slug_invariant_amended.2.1 db3 argsC (by decide)⟩

/-! ### Retry semantics (C3, C4) -/

lemma find?_map_pred {α : Type} (l : List α) (g : α → α) (p : α → Bool)
    (h : ∀ x, p (g x) = p x) :
    (l.map g).find? p = (l.find? p).map g := by
  induction l with
  | nil => rfl
  | cons x rest ih =>
    rcases hp : p x with _ | _
    · rw [List.map_cons, List.find?_cons_of_neg _ (by rw [h, hp]; exact Bool.false_ne_true),
        List.find?_cons_of_neg _ (by rw [hp]; exact Bool.false_ne_true)]
      exact ih
    · rw [List.map_cons, List.find?_cons_of_pos _ (by rw [h]; exact hp),
        List.find?_cons_of_pos _ hp]
      rfl

lemma getCompany_updateCompany (db : Db) (cid : String) (f : Company → Company)
    (hname : ∀ x, (f x).name = x.name) :
    getCompany (updateCompany db cid f) cid = (getCompany db cid).map
      (fun x => if x.name = cid then f x else x) := by
  unfold getCompany updateCompany
  apply find?_map_pred
  intro x
  by_cases hn : x.name = cid
  · rw [if_pos hn]
    simp [hname, hn]
  · rw [if_neg hn]

/-- C3: invoking either retry endpoint on a tenant whose status is not
`Failed` returns the validation rejection and leaves the record store
entirely unchanged — no status, site_status, timestamp or notes write, and
no provisioning job enqueued. -/
theorem retry_nonfailed_rejected (db : Db) (cid : String) (now : Nat)
    (c : Company) (hc : getCompany db cid = some c)
    (h : c.status ≠ "Failed") :
    retryFailedCompany db cid =
      ⟨.validationError "Only failed companies can be retried", db, []⟩
    ∧ retryProvisioning db now cid =
      ⟨.validationError "Only failed companies can be retried", db, []⟩ := by
  refine ⟨?_, ?_⟩
  · simp only [retryFailedCompany, hc]
    rw [if_pos h]
  · simp only [retryProvisioning, hc]
    rw [if_pos h]

/-- C3 witness: retrying an `Active` tenant is rejected with no effect on
the store and nothing enqueued. -/
theorem retry_nonfailed_rejected_witness :
    retryFailedCompany dbActive "COMP-1" =
      ⟨.validationError "Only failed companies can be retried", dbActive, []⟩
    ∧ retryProvisioning dbActive 7 "COMP-1" =
      ⟨.validationError "Only failed companies can be retried", dbActive, []⟩ :=
  retry_nonfailed_rejected dbActive "COMP-1" 7
    { compA with
      status := "Active", siteStatus := "Active" } (by decide) (by decide)

/-- C4 counterexample: a successful retry through
`company_manage.retry_provisioning` moves the `Failed` tenant to status
`Provisioning`, not `Queued`, refuting "transitions the tenant's status to
'Queued' (not any other status)" for that retry endpoint. -/
theorem retry_status_counterexample :
    (retryProvisioning dbFailed 5 "COMP-1").response = .success
    ∧ (getCompany (retryProvisioning dbFailed 5 "COMP-1").db "COMP-1").map
        Company.status = some "Provisioning"
    ∧ (some "Provisioning" : Option String) ≠ some "Queued" :=
  ⟨by decide, by decide, by decide⟩

/-- C4 (amended): for a tenant in status `Failed`, a successful retry via
`retry_failed_company` transitions it to `Queued` (site_status `Queued`,
notes cleared) while a retry via `retry_provisioning` transitions it
directly to `Provisioning` (setting `provisioning_started_at`); both
re-enqueue provisioning with the previously stored site name and leave
every other field — the reserved subdomain included — unchanged: no
re-allocation of the namespace. -/
theorem retry_transitions (db : Db) (cid : String) (now : Nat) (c : Company)
    (hc : getCompany db cid = some c) (hf : c.status = "Failed") :
    ((retryFailedCompany db cid).response = .success
      ∧ (retryFailedCompany db cid).jobs =
          [⟨cid, c.siteName,
            if c.adminPassword = "" then "admin" else c.adminPassword,
            c.adminEmail, c.customerId, ["erpnext"], 600⟩]
      ∧ getCompany (retryFailedCompany db cid).db cid =
          some { c with
            status := "Queued", siteStatus := "Queued",
            provisioningNotes := "" })
    ∧ ((retryProvisioning db now cid).response = .success
      ∧ (retryProvisioning db now cid).jobs =
          [⟨cid, c.siteName,
            if c.adminPassword = "" then "admin" else c.adminPassword,
            c.adminEmail, c.customerId, ["erpnext"], 600⟩]
      ∧ getCompany (retryProvisioning db now cid).db cid =
          some { c with
            status := "Provisioning", provisioningStartedAt := some now }) := by
  have hcname := getCompany_name hc
  refine ⟨?_, ?_⟩
  · simp only [retryFailedCompany, hc]
    rw [if_neg (by simp [hf])]
    refine ⟨rfl, rfl, ?_⟩
    have hup := getCompany_updateCompany db cid
      (fun x => { x with
        status := "Queued", siteStatus := "Queued", provisioningNotes := "" })
      (fun x => rfl)
    dsimp only
    rw [hup, hc]
    dsimp only [Option.map]
    rw [if_pos hcname]
  · simp only [retryProvisioning, hc]
    rw [if_neg (by simp [hf])]
    refine ⟨rfl, rfl, ?_⟩
    have hup := getCompany_updateCompany db cid
      (fun x => { x with
        status := "Provisioning", provisioningStartedAt := some now })
      (fun x => rfl)
    dsimp only
    rw [hup, hc]
    dsimp only [Option.map]
    rw [if_pos hcname]

/-- C4 witness: the amended theorem applied to the concrete failed tenant
`COMP-1` of `dbFailed`. -/
theorem retry_transitions_witness :
    (retryFailedCompany dbFailed "COMP-1").response = .success
    ∧ (getCompany (retryProvisioning dbFailed 5 "COMP-1").db "COMP-1") =
        some { { compA with
          status := "Failed", siteStatus := "Queued",
          provisioningNotes := "Error: boom" } with
          status := "Provisioning", provisioningStartedAt := some 5 } :=
  ⟨(retry_transitions dbFailed "COMP-1" 5
      { compA with
        status := "Failed", siteStatus := "Queued",
        provisioningNotes := "Error: boom" } (by decide) (by decide)).1.1,
   (retry_transitions dbFailed "COMP-1" 5
      { compA with
        status := "Failed", siteStatus := "Queued",
        provisioningNotes := "Error: boom" } (by decide) (by decide)).2.2.2⟩

/-! ### Pipeline step lemmas (C5–C8) -/

lemma provisionCreateSteps_events (env : Env) (siteName pw : String)
    (cfg : DbConfig) (ev0 : List CmdEvent) (lockDel : Bool) :
    ∀ ev ∈ (provisionCreateSteps env siteName pw cfg ev0 lockDel).events,
      ev ∈ ev0 ∨ ev = CmdEvent.shell (preCmd cfg) runTimeoutSeconds
        ∨ ev = CmdEvent.bench (newSiteCmd siteName cfg pw) runTimeoutSeconds := by
  intro ev hev
  simp only [provisionCreateSteps, runBench] at hev
  repeat' split at hev
  all_goals
    simp only [List.mem_append, List.mem_singleton, List.not_mem_nil,
      or_false] at hev
  all_goals tauto

lemma provisionCreateSteps_lockDeleted (env : Env) (siteName pw : String)
    (cfg : DbConfig) (ev0 : List CmdEvent) (lockDel : Bool) :
    (provisionCreateSteps env siteName pw cfg ev0 lockDel).lockDeleted
      = lockDel := by
  simp only [provisionCreateSteps, runBench]
  repeat' split
  all_goals rfl

lemma runBench_snd (env : Env) (args : List String) :
    (runBench env args).2 =
      if env.benchPathIsDir then [CmdEvent.bench args runTimeoutSeconds]
      else [] := by
  simp only [runBench]
  split <;> rfl

lemma siteIsInstalled_snd (env : Env) (s : String) :
    (siteIsInstalled env s).2 = (runBench env ["bench", "--site", s, "list-apps"]).2 := by
  simp only [siteIsInstalled]
  rcases runBench env ["bench", "--site", s, "list-apps"] with ⟨r, ev⟩
  rcases r <;> rfl

lemma cleanStaleLock_snd (env : Env) :
    (cleanStaleLock env).2 =
      if env.lockExists then [CmdEvent.shell pgrepCmd runTimeoutSeconds]
      else [] := by
  simp only [cleanStaleLock]
  split
  · rcases h : env.shell pgrepCmd <;> rfl
  · rfl

lemma provisionFrappeSite_events (env : Env) (siteName pw : String)
    (cfg : DbConfig) (ow : Bool) :
    ∀ ev ∈ (provisionFrappeSite env siteName pw cfg ow).events,
      ev = CmdEvent.bench ["bench", "--site", siteName, "list-apps"]
          runTimeoutSeconds
        ∨ ev = CmdEvent.shell pgrepCmd runTimeoutSeconds
        ∨ ev = CmdEvent.shell (preCmd cfg) runTimeoutSeconds
        ∨ ev = CmdEvent.bench (newSiteCmd siteName cfg pw) runTimeoutSeconds := by
  intro ev hev
  simp only [provisionFrappeSite] at hev
  split at hev
  · exact absurd hev (List.not_mem_nil _)
  split at hev
  · rename_i hsite
    rcases hsi : siteIsInstalled env siteName with ⟨r, ev0⟩
    rw [hsi] at hev
    have hev0 : ∀ e ∈ ev0, e = CmdEvent.bench
        ["bench", "--site", siteName, "list-apps"] runTimeoutSeconds := by
      intro e he
      have h2 : (siteIsInstalled env siteName).2 = ev0 := by rw [hsi]
      rw [siteIsInstalled_snd, runBench_snd] at h2
      split at h2
      · rw [← h2] at he
        simpa using he
      · rw [← h2] at he
        simp at he
    rcases r with e | installed
    · exact Or.inl (hev0 ev hev)
    · dsimp only at hev
      split at hev
      · split at hev
        · exact Or.inl (hev0 ev hev)
        · rcases hcl : cleanStaleLock env with ⟨ld, ev1⟩
          rw [hcl] at hev
          have hev1 : ∀ e ∈ ev1, e = CmdEvent.shell pgrepCmd
              runTimeoutSeconds := by
            intro e he
            have h2 : (cleanStaleLock env).2 = ev1 := by rw [hcl]
            rw [cleanStaleLock_snd] at h2
            split at h2
            · rw [← h2] at he
              simpa using he
            · rw [← h2] at he
              simp at he
          rcases provisionCreateSteps_events _ _ _ _ _ _ ev hev
            with h | h | h
          · rcases List.mem_append.1 h with h' | h'
            · exact Or.inl (hev0 ev h')
            · exact Or.inr (Or.inl (hev1 ev h'))
          · exact Or.inr (Or.inr (Or.inl h))
          · exact Or.inr (Or.inr (Or.inr h))
      · rcases provisionCreateSteps_events _ _ _ _ _ _ ev hev
          with h | h | h
        · exact Or.inl (hev0 ev h)
        · exact Or.inr (Or.inr (Or.inl h))
        · exact Or.inr (Or.inr (Or.inr h))
  · rcases provisionCreateSteps_events _ _ _ _ _ _ ev hev with h | h | h
    · exact absurd h (List.not_mem_nil _)
    · exact Or.inr (Or.inr (Or.inl h))
    · exact Or.inr (Or.inr (Or.inr h))

lemma installAppsGo_events (env : Env) (siteName : String) (apps : List String) :
    ∀ ev ∈ (installAppsGo env siteName apps).2,
      ∃ app, ev = CmdEvent.bench
        ["bench", "--site", siteName, "install-app", app] runTimeoutSeconds := by
  induction apps with
  | nil =>
    intro ev hev
    simp [installAppsGo] at hev
  | cons app rest ih =>
    intro ev hev
    simp only [installAppsGo] at hev
    rcases hrb : runBench env ["bench", "--site", siteName, "install-app", app]
      with ⟨r, evh⟩
    rw [hrb] at hev
    have hevh : ∀ e ∈ evh, e = CmdEvent.bench
        ["bench", "--site", siteName, "install-app", app] runTimeoutSeconds := by
      intro e he
      have h2 : (runBench env
          ["bench", "--site", siteName, "install-app", app]).2 = evh := by
        rw [hrb]
      rw [runBench_snd] at h2
      split at h2
      · rw [← h2] at he
        simpa using he
      · rw [← h2] at he
        simp at he
    rcases r with ⟨code, out, err⟩ | _
    · dsimp only at hev
      rcases hgo : installAppsGo env siteName rest with ⟨r2, evs⟩
      rw [hgo] at hev
      have htail : ∀ e ∈ evs, ∃ app2, e = CmdEvent.bench
          ["bench", "--site", siteName, "install-app", app2]
          runTimeoutSeconds := by
        intro e he
        exact ih e (by rw [hgo]; exact he)
      rcases r2 with e | ⟨inst, failed⟩
      · dsimp only at hev
        rcases List.mem_append.1 hev with h' | h'
        · exact ⟨app, hevh ev h'⟩
        · exact htail ev h'
      · dsimp only at hev
        split at hev <;>
          (rcases List.mem_append.1 hev with h' | h'
           · exact ⟨app, hevh ev h'⟩
           · exact htail ev h')
    · dsimp only at hev
      exact ⟨app, hevh ev hev⟩

lemma provisionCreateSteps_outcome (env : Env) (siteName pw : String)
    (cfg : DbConfig) (ev0 : List CmdEvent) (lockDel : Bool)
    (preOut preErr out err : String) (code : Int)
    (hpre : env.shell (preCmd cfg) = .completed 0 preOut preErr)
    (hns : (runBench env (newSiteCmd siteName cfg pw)).1
      = .completed code out err)
    (hcode : code ≠ 0) :
    (provisionCreateSteps env siteName pw cfg ev0 lockDel).outcome =
      .ok (false,
        if containsSubstr (pyOr err out) "could not be acquired"
        then "Site creation lock conflict. Please retry."
        else pyOr err out, "") := by
  simp only [provisionCreateSteps]
  rw [hpre]
  dsimp only
  rw [if_neg (by simp)]
  rcases hrb : runBench env (newSiteCmd siteName cfg pw) with ⟨r, ev2⟩
  rw [hrb] at hns
  dsimp only at hns
  subst hns
  dsimp only
  rw [if_pos hcode]
  split <;> rfl

lemma provisionFrappeSite_outcome (env : Env) (siteName pw : String)
    (cfg : DbConfig) (preOut preErr out err : String) (code : Int)
    (hroot : cfg.dbRootPassword ≠ "")
    (hlist : env.bench ["bench", "--site", siteName, "list-apps"]
      ≠ .timedOut)
    (hpre : env.shell (preCmd cfg) = .completed 0 preOut preErr)
    (hns : (runBench env (newSiteCmd siteName cfg pw)).1
      = .completed code out err)
    (hcode : code ≠ 0) :
    (provisionFrappeSite env siteName pw cfg true).outcome =
      .ok (false,
        if containsSubstr (pyOr err out) "could not be acquired"
        then "Site creation lock conflict. Please retry."
        else pyOr err out, "") := by
  simp only [provisionFrappeSite]
  rw [if_neg hroot]
  split
  · rename_i hsite
    rcases hsi : siteIsInstalled env siteName with ⟨r, ev0⟩
    rcases r with e | installed
    · exfalso
      have h1 : (siteIsInstalled env siteName).1 = .error e := by rw [hsi]
      simp only [siteIsInstalled] at h1
      rcases hb2 : (runBench env ["bench", "--site", siteName, "list-apps"]).1
        with ⟨c2, o2, e2⟩ | _
      · rw [hb2] at h1
        simp at h1
      · simp only [runBench] at hb2
        split at hb2
        · exact hlist hb2
        · simp at hb2
    · dsimp only
      split
      · rw [if_neg (by simp)]
        rcases cleanStaleLock env with ⟨ld, ev1⟩
        exact provisionCreateSteps_outcome env siteName pw cfg _ _
          preOut preErr out err code hpre hns hcode
      · exact provisionCreateSteps_outcome env siteName pw cfg _ _
          preOut preErr out err code hpre hns hcode
  · exact provisionCreateSteps_outcome env siteName pw cfg _ _
      preOut preErr out err code hpre hns hcode

/-- C5 (amended): in every pipeline run whose instance-create command
exits non-zero, the tenant becomes `Failed`, the job re-raises, no
module-install command is ever invoked, and `provisioning_notes` holds
`Error: Site provisioning failed: ` followed by the captured error text
(stderr, or stdout when stderr is empty) — except when that text contains
`could not be acquired`, in which case the notes hold the fixed lock-
conflict message instead of the captured output. -/
theorem create_failure_no_install (env : Env) (now : Nat) (c : Company)
    (siteName pw : String) (apps : List String)
    (preOut preErr out err : String) (code : Int)
    (hroot : env.dbCfg.dbRootPassword ≠ "")
    (hlist : env.bench ["bench", "--site", siteName, "list-apps"]
      ≠ .timedOut)
    (hpre : env.shell (preCmd env.dbCfg) = .completed 0 preOut preErr)
    (hns : (runBench env (newSiteCmd siteName env.dbCfg pw)).1
      = .completed code out err)
    (hcode : code ≠ 0) :
    (provisionCompanySite env now c siteName pw apps).company.status = "Failed"
    ∧ (provisionCompanySite env now c siteName pw apps).raised = true
    ∧ (∀ ev ∈ (provisionCompanySite env now c siteName pw apps).events,
        isInstallEvent ev = false)
    ∧ (provisionCompanySite env now c siteName pw apps).company.provisioningNotes
        = "Error: Site provisioning failed: " ++
            (if containsSubstr (pyOr err out) "could not be acquired"
             then "Site creation lock conflict. Please retry."
             else pyOr err out) := by
  have hout := provisionFrappeSite_outcome env siteName pw env.dbCfg
    preOut preErr out err code hroot hlist hpre hns hcode
  have hnoinstall : ∀ ev ∈ (provisionCompanySite env now c siteName pw
      apps).events, isInstallEvent ev = false := by
    intro ev hev
    have hevents : (provisionCompanySite env now c siteName pw apps).events
        = (provisionFrappeSite env siteName pw env.dbCfg true).events := by
      simp only [provisionCompanySite, pipelineFail]
      rw [hout]
      dsimp only
      rw [if_pos (by simp)]
    rw [hevents] at hev
    rcases provisionFrappeSite_events env siteName pw env.dbCfg true ev hev
      with h | h | h | h <;> (subst h; rfl)
  refine ⟨?_, ?_, hnoinstall, ?_⟩ <;>
    · simp only [provisionCompanySite, pipelineFail]
      rw [hout]
      dsimp only
      rw [if_pos (by simp)]

/-- C5 counterexample: in a run whose `bench new-site` exits 1 with stderr
`the lock could not be acquired on site`, the tenant is `Failed` but
`provisioning_notes` does *not* contain the captured stderr — the code
replaces it with a fixed lock-conflict message — refuting "the
provisioning_notes field contains the captured error text" as stated. -/
theorem create_failure_notes_counterexample :
    (provisionCompanySite envLockErr 0 compA "acme.pixone.com" "pw1"
      ["erpnext"]).company.status = "Failed"
    ∧ containsSubstr
        (provisionCompanySite envLockErr 0 compA "acme.pixone.com" "pw1"
          ["erpnext"]).company.provisioningNotes
        "the lock could not be acquired on site" = false :=
  ⟨by decide, by decide⟩

/-- C5 witness: the amended theorem at a concrete environment whose
`bench new-site` exits 1 with a plain (non-lock) error. -/
theorem create_failure_no_install_witness :
    (provisionCompanySite envBadCreate 0 compA "acme.pixone.com" "pw1"
      ["erpnext"]).company.status = "Failed"
    ∧ (provisionCompanySite envBadCreate 0 compA "acme.pixone.com" "pw1"
      ["erpnext"]).company.provisioningNotes
        = "Error: Site provisioning failed: " ++
            (if containsSubstr (pyOr "mysql refused" "") "could not be acquired"
             then "Site creation lock conflict. Please retry."
             else pyOr "mysql refused" "") :=
  ⟨(create_failure_no_install envBadCreate 0 compA "acme.pixone.com" "pw1"
      ["erpnext"] "" "" "" "mysql refused" 1 (by decide) (by decide)
      (by decide) (by decide) (by decide)).1,
   (create_failure_no_install envBadCreate 0 compA "acme.pixone.com" "pw1"
      ["erpnext"] "" "" "" "mysql refused" 1 (by decide) (by decide)
      (by decide) (by decide) (by decide)).2.2.2⟩

lemma intercalate_pair (a b : String) :
    String.intercalate "\n" [a, b] = a ++ "\n" ++ b := by
  simp [String.intercalate, String.intercalate.go]

/-- C6: in every pipeline run where instance creation succeeds but at
least one module installation exits non-zero (and none times out), the
tenant still reaches status `Active` with `provisioning_completed_at` set
and the job completing without raising; the per-module failures are
recorded in the notes (`Apps: Failed to install apps: ...`) but never move
the tenant to `Failed` or block the promotion to Active. -/
theorem module_failure_still_active (env : Env) (now : Nat) (c : Company)
    (siteName pw : String) (apps : List String) (msg outp : String)
    (inst : List String) (failed : List (String × String))
    (evs : List CmdEvent)
    (hcreate : (provisionFrappeSite env siteName pw env.dbCfg true).outcome
      = .ok (true, msg, outp))
    (happs : apps ≠ [])
    (hgo : installAppsGo env siteName apps = (.ok (inst, failed), evs))
    (hfailed : failed ≠ []) :
    (provisionCompanySite env now c siteName pw apps).company.status = "Active"
    ∧ (provisionCompanySite env now c siteName pw
        apps).company.provisioningCompletedAt = some now
    ∧ (provisionCompanySite env now c siteName pw apps).raised = false
    ∧ (provisionCompanySite env now c siteName pw apps).company.provisioningNotes
        = "Site created: " ++ msg ++ "\n" ++
            ("Apps: " ++ ("Failed to install apps: " ++ jsonDumpsFailed failed))
    ∧ (provisionCompanySite env now c siteName pw apps).company.status
        ≠ "Failed" := by
  have hinstall : installAppsOnSite env siteName apps =
      (.ok (false, "Failed to install apps: " ++ jsonDumpsFailed failed), evs) := by
    simp only [installAppsOnSite]
    rw [if_neg (by simpa using happs), hgo]
    dsimp only
    rw [if_pos (by simpa using hfailed)]
  have hred : provisionCompanySite env now c siteName pw apps =
      ⟨{ c with
          status := "Active", provisioningStartedAt := some now,
          siteStatus := "Active", dbName := "_" ++ siteName,
          dbHost := env.dbCfg.dbHost, dbPort := env.dbCfg.dbPort,
          provisioningCompletedAt := some now,
          provisioningNotes := String.intercalate "\n"
            ["Site created: " ++ msg,
             "Apps: " ++ ("Failed to install apps: " ++ jsonDumpsFailed failed)] },
        (provisionFrappeSite env siteName pw env.dbCfg true).events ++ evs,
        (provisionFrappeSite env siteName pw env.dbCfg true).lockDeleted,
        false⟩ := by
    simp only [provisionCompanySite]
    rw [hcreate]
    dsimp only
    rw [if_neg (by simp), if_neg (by simpa using happs), hinstall]
    rfl
  rw [hred]
  refine ⟨rfl, rfl, rfl, ?_, by simp⟩
  dsimp only
  rw [intercalate_pair]

/-- C6 witness: with instance creation succeeding and the module `hrms`
failing to install, the tenant ends `Active` with the failure recorded in
the notes. -/
theorem module_failure_still_active_witness :
    (provisionCompanySite envBadApp 0 compA "acme.pixone.com" "pw1"
      ["erpnext", "hrms"]).company.status = "Active"
    ∧ (provisionCompanySite envBadApp 0 compA "acme.pixone.com" "pw1"
        ["erpnext", "hrms"]).company.provisioningCompletedAt = some 0
    ∧ (provisionCompanySite envBadApp 0 compA "acme.pixone.com" "pw1"
        ["erpnext", "hrms"]).company.status ≠ "Failed" :=
  ⟨(module_failure_still_active envBadApp 0 compA "acme.pixone.com" "pw1"
      ["erpnext", "hrms"] "Site acme.pixone.com created successfully" ""
      ["erpnext"] [("hrms", "app hrms failed")]
      [CmdEvent.bench ["bench", "--site", "acme.pixone.com", "install-app",
        "erpnext"] runTimeoutSeconds,
       CmdEvent.bench ["bench", "--site", "acme.pixone.com", "install-app",
        "hrms"] runTimeoutSeconds]
      rfl (by decide) rfl (by decide)).1,
   (module_failure_still_active envBadApp 0 compA "acme.pixone.com" "pw1"
      ["erpnext", "hrms"] "Site acme.pixone.com created successfully" ""
      ["erpnext"] [("hrms", "app hrms failed")]
      [CmdEvent.bench ["bench", "--site", "acme.pixone.com", "install-app",
        "erpnext"] runTimeoutSeconds,
       CmdEvent.bench ["bench", "--site", "acme.pixone.com", "install-app",
        "hrms"] runTimeoutSeconds]
      rfl (by decide) rfl (by decide)).2.1,
   (module_failure_still_active envBadApp 0 compA "acme.pixone.com" "pw1"
      ["erpnext", "hrms"] "Site acme.pixone.com created successfully" ""
      ["erpnext"] [("hrms", "app hrms failed")]
      [CmdEvent.bench ["bench", "--site", "acme.pixone.com", "install-app",
        "erpnext"] runTimeoutSeconds,
       CmdEvent.bench ["bench", "--site", "acme.pixone.com", "install-app",
        "hrms"] runTimeoutSeconds]
      rfl (by decide) rfl (by decide)).2.2.2.2⟩

/-! ### Lock manager (C7) -/

lemma siteIsInstalled_fst (env : Env) (s : String) (lcode : Int)
    (lout lerr : String) (hdir : env.benchPathIsDir = true)
    (hb : env.bench ["bench", "--site", s, "list-apps"]
      = .completed lcode lout lerr) :
    (siteIsInstalled env s).1 = .ok (decide (lcode = 0)) := by
  simp only [siteIsInstalled, runBench]
  rw [if_pos hdir, hb]

lemma cleanStaleLock_fst (env : Env) (pc : Int) (po pe : String)
    (hlock : env.lockExists = true)
    (hsh : env.shell pgrepCmd = .completed pc po pe) :
    (cleanStaleLock env).1 = decide (pyStrip po = "") := by
  simp only [cleanStaleLock]
  rw [if_pos hlock, hsh]

/-- In the partial-site case (`_site_exists` and not installed), with
`overwrite=True`, `_provision_frappe_site` runs the stale-lock cleanup and
proceeds with the create steps. -/
lemma provisionFrappeSite_reduces_partial (env : Env) (siteName pw : String)
    (cfg : DbConfig) (hroot : cfg.dbRootPassword ≠ "")
    (hsite : env.siteExists = true)
    (hni : (siteIsInstalled env siteName).1 = .ok false) :
    provisionFrappeSite env siteName pw cfg true =
      provisionCreateSteps env siteName pw cfg
        ((siteIsInstalled env siteName).2 ++ (cleanStaleLock env).2)
        (cleanStaleLock env).1 := by
  simp only [provisionFrappeSite]
  rw [if_neg hroot, if_pos hsite]
  rcases hsi : siteIsInstalled env siteName with ⟨r, ev0⟩
  have hr : r = .ok false := by
    rw [hsi] at hni
    exact hni
  subst hr
  dsimp only
  rcases hcl : cleanStaleLock env with ⟨ld, ev1⟩
  rfl

lemma provisionCreateSteps_newSite_mem (env : Env) (siteName pw : String)
    (cfg : DbConfig) (ev0 : List CmdEvent) (ld : Bool)
    (preOut preErr : String) (hdir : env.benchPathIsDir = true)
    (hpre : env.shell (preCmd cfg) = .completed 0 preOut preErr) :
    CmdEvent.bench (newSiteCmd siteName cfg pw) runTimeoutSeconds
      ∈ (provisionCreateSteps env siteName pw cfg ev0 ld).events := by
  simp only [provisionCreateSteps]
  rw [hpre]
  dsimp only
  rw [if_neg (by simp)]
  rcases hrb : runBench env (newSiteCmd siteName cfg pw) with ⟨r, ev2⟩
  have hev2 : ev2 = [CmdEvent.bench (newSiteCmd siteName cfg pw)
      runTimeoutSeconds] := by
    have h2 : (runBench env (newSiteCmd siteName cfg pw)).2 = ev2 := by
      rw [hrb]
    rw [runBench_snd, if_pos hdir] at h2
    exact h2.symm
  subst hev2
  rcases r with ⟨code, out, err⟩ | _
  · dsimp only
    repeat' split
    all_goals simp
  · simp

/-- C7: with a partial site directory and the lock file present:
if no `bench new-site` process is running (pgrep prints nothing), the lock
file is deleted and creation proceeds (the `bench new-site` command is
issued); if a live process is found, the lock file is not deleted and —
the external tool refusing the held lock with `could not be acquired` —
the creation attempt is rejected as the retryable lock conflict. -/
theorem lock_manager_behavior (env : Env) (siteName pw : String)
    (cfg : DbConfig) (preOut preErr lout lerr : String) (lcode : Int)
    (hdir : env.benchPathIsDir = true)
    (hroot : cfg.dbRootPassword ≠ "")
    (hsite : env.siteExists = true)
    (hlock : env.lockExists = true)
    (hlistapps : env.bench ["bench", "--site", siteName, "list-apps"]
      = .completed lcode lout lerr)
    (hlcode : lcode ≠ 0)
    (hpre : env.shell (preCmd cfg) = .completed 0 preOut preErr) :
    (∀ pc po pe, env.shell pgrepCmd = .completed pc po pe → pyStrip po = "" →
      (provisionFrappeSite env siteName pw cfg true).lockDeleted = true
      ∧ CmdEvent.bench (newSiteCmd siteName cfg pw) runTimeoutSeconds
          ∈ (provisionFrappeSite env siteName pw cfg true).events)
    ∧ (∀ pc po pe code out err,
      env.shell pgrepCmd = .completed pc po pe → pyStrip po ≠ "" →
      (runBench env (newSiteCmd siteName cfg pw)).1 = .completed code out err →
      code ≠ 0 →
      containsSubstr (pyOr err out) "could not be acquired" = true →
      (provisionFrappeSite env siteName pw cfg true).lockDeleted = false
      ∧ (provisionFrappeSite env siteName pw cfg true).outcome
          = .ok (false, "Site creation lock conflict. Please retry.", "")) := by
  have hni : (siteIsInstalled env siteName).1 = .ok false := by
    rw [siteIsInstalled_fst env siteName lcode lout lerr hdir hlistapps]
    simp [hlcode]
  have hred := provisionFrappeSite_reduces_partial env siteName pw cfg
    hroot hsite hni
  constructor
  · intro pc po pe hsh hempty
    rw [hred]
    constructor
    · rw [provisionCreateSteps_lockDeleted,
        cleanStaleLock_fst env pc po pe hlock hsh]
      simp [hempty]
    · exact provisionCreateSteps_newSite_mem env siteName pw cfg _ _
        preOut preErr hdir hpre
  · intro pc po pe code out err hsh hnonempty hns hcode hsubstr
    rw [hred]
    constructor
    · rw [provisionCreateSteps_lockDeleted,
        cleanStaleLock_fst env pc po pe hlock hsh]
      simp [hnonempty]
    · rw [provisionCreateSteps_outcome env siteName pw cfg _ _
        preOut preErr out err code hpre hns hcode]
      rw [if_pos hsubstr]

/-- C7 witness: the theorem applied to `envStaleLock` (no live process:
lock deleted, create issued) and `envLiveLock` (live process holding the
lock: lock kept, lock-conflict rejection). -/
theorem lock_manager_behavior_witness :
    ((provisionFrappeSite envStaleLock "acme.pixone.com" "pw1" cfgDemo
        true).lockDeleted = true
      ∧ CmdEvent.bench (newSiteCmd "acme.pixone.com" cfgDemo "pw1")
          runTimeoutSeconds
          ∈ (provisionFrappeSite envStaleLock "acme.pixone.com" "pw1" cfgDemo
            true).events)
    ∧ ((provisionFrappeSite envLiveLock "acme.pixone.com" "pw1" cfgDemo
        true).lockDeleted = false
      ∧ (provisionFrappeSite envLiveLock "acme.pixone.com" "pw1" cfgDemo
        true).outcome
          = .ok (false, "Site creation lock conflict. Please retry.", "")) :=
  ⟨(lock_manager_behavior envStaleLock "acme.pixone.com" "pw1" cfgDemo
      "" "" "" "not installed" 1 rfl (by decide) rfl rfl rfl (by decide)
      rfl).1 0 "" "" rfl (by decide),
   (lock_manager_behavior envLiveLock "acme.pixone.com" "pw1" cfgDemo
      "" "" "" "not installed" 1 rfl (by decide) rfl rfl rfl (by decide)
      rfl).2 0 "1234 bench retail.pixone.com new-site" "" 1 ""
      "Site lock could not be acquired" rfl (by decide) rfl (by decide)
      (by decide)⟩

/-! ### Command timeouts (C8) -/

lemma installAppsOnSite_snd (env : Env) (s : String) (apps : List String) :
    (installAppsOnSite env s apps).2 = [] ∨
    (installAppsOnSite env s apps).2 = (installAppsGo env s apps).2 := by
  simp only [installAppsOnSite]
  split
  · exact Or.inl rfl
  · rcases hgo : installAppsGo env s apps with ⟨r, evs⟩
    rcases r with e | ⟨inst, failed⟩
    · exact Or.inr rfl
    · dsimp only
      split
      · exact Or.inr rfl
      · exact Or.inr rfl

lemma provisionCompanySite_events_timeout (env : Env) (now : Nat)
    (c : Company) (siteName pw : String) (apps : List String) :
    ∀ ev ∈ (provisionCompanySite env now c siteName pw apps).events,
      eventTimeoutSec ev = runTimeoutSeconds := by
  intro ev hev
  have hpr : ∀ e ∈ (provisionFrappeSite env siteName pw env.dbCfg
      true).events, eventTimeoutSec e = runTimeoutSeconds := by
    intro e he
    rcases provisionFrappeSite_events env siteName pw env.dbCfg true e he
      with h | h | h | h <;> (subst h; rfl)
  have hin : ∀ e ∈ (installAppsOnSite env siteName apps).2,
      eventTimeoutSec e = runTimeoutSeconds := by
    intro e he
    rcases installAppsOnSite_snd env siteName apps with h2 | h2
    · rw [h2] at he
      simp at he
    · rw [h2] at he
      rcases installAppsGo_events env siteName apps e he with ⟨app, rfl⟩
      rfl
  simp only [provisionCompanySite, pipelineFail] at hev
  rcases ho : (provisionFrappeSite env siteName pw env.dbCfg true).outcome
    with e | ⟨succ, msg, outp⟩
  · rw [ho] at hev
    dsimp only at hev
    exact hpr ev hev
  · rw [ho] at hev
    dsimp only at hev
    split at hev
    · exact hpr ev hev
    · split at hev
      · exact hpr ev hev
      · rcases hio : installAppsOnSite env siteName apps with ⟨r, evs⟩
        rw [hio] at hev
        have hevs : ∀ e ∈ evs, eventTimeoutSec e = runTimeoutSeconds := by
          intro e he
          apply hin
          rw [hio]
          exact he
        rcases r with e2 | ⟨ok, m⟩ <;>
          (dsimp only at hev
           rcases List.mem_append.1 hev with h | h
           · exact hpr ev h
           · exact hevs ev h)

lemma runBackup_benchCmd_timeout (env : Env) (cid siteName : String) :
    ∀ args t, BackupEvent.benchCmd args t ∈ (runBackup env cid siteName).2 →
      t = backupTimeoutSeconds := by
  intro args t hmem
  simp only [runBackup] at hmem
  repeat' split at hmem
  all_goals simp at hmem
  all_goals tauto

lemma provisionFrappeSite_reduces (env : Env) (siteName pw : String)
    (cfg : DbConfig) (hroot : cfg.dbRootPassword ≠ "")
    (hlist : env.bench ["bench", "--site", siteName, "list-apps"]
      ≠ .timedOut) :
    ∃ ev0 ld, provisionFrappeSite env siteName pw cfg true =
      provisionCreateSteps env siteName pw cfg ev0 ld := by
  simp only [provisionFrappeSite]
  rw [if_neg hroot]
  split
  · rcases hsi : siteIsInstalled env siteName with ⟨r, ev0⟩
    rcases r with e | installed
    · exfalso
      have h1 : (siteIsInstalled env siteName).1 = .error e := by rw [hsi]
      simp only [siteIsInstalled] at h1
      rcases hb2 : (runBench env ["bench", "--site", siteName, "list-apps"]).1
        with ⟨c2, o2, e2⟩ | _
      · rw [hb2] at h1
        simp at h1
      · simp only [runBench] at hb2
        split at hb2
        · exact hlist hb2
        · simp at hb2
    · dsimp only
      split
      · rcases cleanStaleLock env with ⟨ld, ev1⟩
        exact ⟨ev0 ++ ev1, ld, rfl⟩
      · exact ⟨ev0, false, rfl⟩
  · exact ⟨[], false, rfl⟩

lemma provisionCreateSteps_timeout (env : Env) (siteName pw : String)
    (cfg : DbConfig) (ev0 : List CmdEvent) (ld : Bool)
    (preOut preErr : String)
    (hpre : env.shell (preCmd cfg) = .completed 0 preOut preErr)
    (hns : (runBench env (newSiteCmd siteName cfg pw)).1 = .timedOut) :
    (provisionCreateSteps env siteName pw cfg ev0 ld).outcome
      = .error "TimeoutExpired: bench new-site" := by
  simp only [provisionCreateSteps]
  rw [hpre]
  dsimp only
  rw [if_neg (by simp)]
  rcases hrb : runBench env (newSiteCmd siteName cfg pw) with ⟨r, ev2⟩
  rw [hrb] at hns
  dsimp only at hns
  subst hns
  rfl

/-- C8 (amended): every modeled external command invocation is bounded by
a subprocess timeout — but the values differ from the claim: the creation
service's `_run` (create-instance, module-install, the set-config and
pgrep shell steps) and the management service's `_run` (its health probe
included) hard-code 300 seconds, not 600; the backup jobs run backup,
restore and post-restore migration with 600 seconds; the monitoring
service's health probe uses 30 seconds.  A timeout raises
`TimeoutExpired` and is surfaced as a failure: a timed-out create command
leaves the tenant `Failed`, a timed-out backup command leaves the Backup
record `Failed`. -/
theorem command_timeouts :
    runTimeoutSeconds = 300
    ∧ manageRunTimeoutSeconds = 300
    ∧ backupTimeoutSeconds = 600
    ∧ monitoringProbeTimeoutSeconds = 30
    ∧ (∀ env now c siteName pw apps,
        ∀ ev ∈ (provisionCompanySite env now c siteName pw apps).events,
          eventTimeoutSec ev = 300)
    ∧ (∀ env cid siteName args t,
        BackupEvent.benchCmd args t ∈ (runBackup env cid siteName).2 →
          t = 600)
    ∧ (∀ env now c siteName pw apps preOut preErr,
        env.dbCfg.dbRootPassword ≠ "" →
        env.bench ["bench", "--site", siteName, "list-apps"] ≠ .timedOut →
        env.shell (preCmd env.dbCfg) = .completed 0 preOut preErr →
        (runBench env (newSiteCmd siteName env.dbCfg pw)).1 = .timedOut →
        (provisionCompanySite env now c siteName pw apps).company.status
          = "Failed")
    ∧ (∀ env cid siteName, env.benchPathIsDir = true →
        env.bench (backupCmd siteName) = .timedOut →
        (runBackup env cid siteName).1.status = "Failed") := by
  refine ⟨rfl, rfl, rfl, rfl, ?_, ?_, ?_, ?_⟩
  · exact provisionCompanySite_events_timeout
  · exact runBackup_benchCmd_timeout
  · intro env now c siteName pw apps preOut preErr hroot hlist hpre hns
    obtain ⟨ev0, ld, hred⟩ := provisionFrappeSite_reduces env siteName pw
      env.dbCfg hroot hlist
    have hout : (provisionFrappeSite env siteName pw env.dbCfg true).outcome
        = .error "TimeoutExpired: bench new-site" := by
      rw [hred]
      exact provisionCreateSteps_timeout env siteName pw env.dbCfg ev0 ld
        preOut preErr hpre hns
    simp only [provisionCompanySite, pipelineFail]
    rw [hout]
  · intro env cid siteName hdir htmo
    simp only [runBackup]
    rw [if_neg (by simp [hdir])]
    have htmo' : env.bench ["bench", "--site", siteName, "backup",
        "--with-files"] = .timedOut := htmo
    rw [htmo']

/-- C8 witness: the amended theorem at concrete runs — an install event of
a healthy run carries the 300 s timeout; a timed-out create leaves the
tenant `Failed`; a timed-out backup leaves the Backup record `Failed`. -/
theorem command_timeouts_witness :
    eventTimeoutSec (CmdEvent.bench
      ["bench", "--site", "acme.pixone.com", "install-app", "erpnext"]
      runTimeoutSeconds) = 300
    ∧ (provisionCompanySite envCreateTimeout 0 compA "acme.pixone.com" "pw1"
        ["erpnext"]).company.status = "Failed"
    ∧ (runBackup envBackupTimeout "COMP-1" "acme.pixone.com").1.status
        = "Failed" :=
  ⟨command_timeouts.2.2.2.2.1 envOk 0 compA "acme.pixone.com" "pw1"
      ["erpnext"] _ (by decide),
   command_timeouts.2.2.2.2.2.2.1 envCreateTimeout 0 compA "acme.pixone.com"
      "pw1" ["erpnext"] "" "" (by decide) (by decide) rfl rfl,
   command_timeouts.2.2.2.2.2.2.2 envBackupTimeout "COMP-1" "acme.pixone.com"
      rfl rfl⟩

/-- C8 counterexample: the instance-create command is issued with a 300 s
subprocess timeout (`timeout=300` in `_run`), not the 600 s the claim
states: the new-site event of a concrete run carries `runTimeoutSeconds`
= 300 ≠ 600. -/
theorem command_timeouts_counterexample :
    CmdEvent.bench (newSiteCmd "acme.pixone.com" cfgDemo "pw1")
        runTimeoutSeconds
      ∈ (provisionCompanySite envOk 0 compA "acme.pixone.com" "pw1" []).events
    ∧ runTimeoutSeconds = 300
    ∧ runTimeoutSeconds ≠ 600 :=
  ⟨by decide, rfl, by decide⟩

/-! ### Backup record lifecycle (C9) -/

lemma listStartsWith_mem {hay needle : List Char}
    (h : listStartsWith hay needle = true) : ∀ n ∈ needle, n ∈ hay := by
  induction needle generalizing hay with
  | nil =>
    intro n hn
    simp at hn
  | cons n ns ih =>
    intro m hm
    cases hay with
    | nil => simp [listStartsWith] at h
    | cons x hs =>
      simp only [listStartsWith, Bool.and_eq_true] at h
      rcases List.mem_cons.1 hm with rfl | hm'
      · have : x = m := by simpa using h.1
        rw [← this]
        exact List.mem_cons_self _ _
      · exact List.mem_cons_of_mem _ (ih h.2 m hm')

lemma listContainsSub_mem {hay needle : List Char}
    (h : listContainsSub hay needle = true) : ∀ n ∈ needle, n ∈ hay := by
  induction hay with
  | nil =>
    intro n hn
    simp only [listContainsSub, List.isEmpty_iff] at h
    subst h
    simp at hn
  | cons x hs ih =>
    intro n hn
    simp only [listContainsSub, Bool.or_eq_true] at h
    rcases h with h | h
    · exact listStartsWith_mem h n hn
    · exact List.mem_cons_of_mem _ (ih h n hn)

lemma dropTrailingIf_eq_nil {p : Char → Bool} {l : List Char}
    (h : dropTrailingIf p l = []) : ∀ c ∈ l, p c = true := by
  induction l with
  | nil =>
    intro c hc
    simp at hc
  | cons x rest ih =>
    intro c hc
    have hstep : dropTrailingIf p (x :: rest) =
        if p x ∧ (dropTrailingIf p rest).isEmpty then []
        else x :: dropTrailingIf p rest := rfl
    rw [hstep] at h
    split at h
    · rename_i hcond
      rcases List.mem_cons.1 hc with rfl | hc'
      · exact hcond.1
      · exact ih (List.isEmpty_iff.1 hcond.2) c hc'
    · simp at h

lemma mem_dropWhile_or {p : Char → Bool} {l : List Char} :
    ∀ c ∈ l, c ∈ l.dropWhile p ∨ p c = true := by
  induction l with
  | nil =>
    intro c hc
    simp at hc
  | cons x rest ih =>
    intro c hc
    by_cases hx : p x
    · rw [List.dropWhile_cons_of_pos hx]
      rcases List.mem_cons.1 hc with rfl | hc'
      · exact Or.inr hx
      · exact ih c hc'
    · rw [List.dropWhile_cons_of_neg (by simpa using hx)]
      exact Or.inl hc

lemma pyStrip_eq_empty {s : String} (h : pyStrip s = "") :
    ∀ c ∈ s.data, pyIsSpace c = true := by
  intro c hc
  have hdata : (pyStrip s).data = [] := by rw [h]
  rw [pyStrip_data] at hdata
  rcases mem_dropWhile_or (p := pyIsSpace) c hc with h' | h'
  · exact dropTrailingIf_eq_nil hdata c h'
  · exact h'

lemma parseBackupLine_ne_empty {lines : List String} {u : String}
    (h : parseBackupLine lines = some u) : u ≠ "" := by
  induction lines with
  | nil => simp [parseBackupLine] at h
  | cons line rest ih =>
    simp only [parseBackupLine] at h
    split at h
    · rename_i hcond
      have hu : u = pyStrip line := by
        simpa using h.symm
      subst hu
      rcases Bool.or_eq_true _ _ |>.mp hcond with hsub | hend
      · -- a `database backup` substring forces a non-space character
        intro hempty
        have hd : Char.ofNat 100 ∈ (pyLower line).data :=
          listContainsSub_mem hsub (Char.ofNat 100) (by decide)
        rw [pyLower_data] at hd
        rcases List.mem_map.1 hd with ⟨c0, hc0, hc0eq⟩
        have hns : pyIsSpace c0 = false := by
          rw [← pyIsSpace_asciiLower, hc0eq]
          decide
        have hsp := pyStrip_eq_empty hempty c0 hc0
        rw [hsp] at hns
        simp at hns
      · -- a `.sql.gz` suffix forces a non-empty strip
        intro hempty
        rw [hempty] at hend
        simp [strEndsWith, listStartsWith] at hend
    · exact ih h

lemma fileSizeMbOf_nonneg (env : Env) (p : String) : 0 ≤ fileSizeMbOf env p := by
  unfold fileSizeMbOf
  split
  · exact Int.ediv_nonneg (Int.natCast_nonneg _) (by norm_num)
  · exact le_refl 0

/-- C9: every `run_backup` run first persists a Backup record with status
`In Progress` (the insert is the head of the trace, so it precedes the
backup command); a non-zero exit — the fast-fail on a missing bench
directory and a command timeout included — leaves the record `Failed`
with no file reference ever stored; a zero exit whose output parses to a
file reference leaves the record `Completed` with that non-empty file
reference and a file size ≥ 0. -/
theorem runBackup_spec (env : Env) (cid siteName : String) :
    ((runBackup env cid siteName).2.head?
      = some (BackupEvent.insertRecord "In Progress"))
    ∧ (env.benchPathIsDir = false →
        (runBackup env cid siteName).1.status = "Failed"
        ∧ (runBackup env cid siteName).1.fileUrl = none)
    ∧ (∀ code out err, env.benchPathIsDir = true →
        env.bench (backupCmd siteName) = .completed code out err → code ≠ 0 →
        (runBackup env cid siteName).1.status = "Failed"
        ∧ (runBackup env cid siteName).1.fileUrl = none)
    ∧ (env.benchPathIsDir = true →
        env.bench (backupCmd siteName) = .timedOut →
        (runBackup env cid siteName).1.status = "Failed"
        ∧ (runBackup env cid siteName).1.fileUrl = none)
    ∧ (∀ out err u, env.benchPathIsDir = true →
        env.bench (backupCmd siteName) = .completed 0 out err →
        parseBackupLine (splitLines (pyStrip out)) = some u →
        (runBackup env cid siteName).1.status = "Completed"
        ∧ (runBackup env cid siteName).1.fileUrl = some u
        ∧ u ≠ ""
        ∧ 0 ≤ (runBackup env cid siteName).1.fileSizeMb) := by
  refine ⟨?_, ?_, ?_, ?_, ?_⟩
  · simp only [runBackup]
    repeat' split
    all_goals rfl
  · intro hdir
    simp only [runBackup]
    rw [if_pos (by simp [hdir])]
    exact ⟨rfl, rfl⟩
  · intro code out err hdir hb hcode
    simp only [runBackup]
    rw [if_neg (by simp [hdir])]
    have hb' : env.bench ["bench", "--site", siteName, "backup",
        "--with-files"] = .completed code out err := hb
    rw [hb']
    dsimp only
    rw [if_pos hcode]
    exact ⟨rfl, rfl⟩
  · intro hdir htmo
    simp only [runBackup]
    rw [if_neg (by simp [hdir])]
    have htmo' : env.bench ["bench", "--site", siteName, "backup",
        "--with-files"] = .timedOut := htmo
    rw [htmo']
    exact ⟨rfl, rfl⟩
  · intro out err u hdir hb hparse
    simp only [runBackup]
    rw [if_neg (by simp [hdir])]
    have hb' : env.bench ["bench", "--site", siteName, "backup",
        "--with-files"] = .completed 0 out err := hb
    rw [hb']
    dsimp only
    rw [if_neg (by simp), hparse]
    exact ⟨rfl, rfl, parseBackupLine_ne_empty hparse, fileSizeMbOf_nonneg env u⟩

/-- C9 witness: a successful backup run (`envOk`, output line
`backup/acme-database.sql.gz`) yields `Completed` with that file
reference, and a failing run (`envBackupFail`, exit 1) yields `Failed`
with no file reference; in both the trace starts with the `In Progress`
insert. -/
theorem runBackup_spec_witness :
    ((runBackup envOk "COMP-1" "acme.pixone.com").2.head?
      = some (BackupEvent.insertRecord "In Progress"))
    ∧ (runBackup envOk "COMP-1" "acme.pixone.com").1.status = "Completed"
    ∧ (runBackup envOk "COMP-1" "acme.pixone.com").1.fileUrl
        = some "backup/acme-database.sql.gz"
    ∧ (runBackup envBackupFail "COMP-1" "acme.pixone.com").1.status = "Failed"
    ∧ (runBackup envBackupFail "COMP-1" "acme.pixone.com").1.fileUrl = none :=
  ⟨(runBackup_spec envOk "COMP-1" "acme.pixone.com").1,
   ((runBackup_spec envOk "COMP-1" "acme.pixone.com").2.2.2.2
      "backup/acme-database.sql.gz" "" "backup/acme-database.sql.gz"
      rfl rfl (by decide)).1,
   ((runBackup_spec envOk "COMP-1" "acme.pixone.com").2.2.2.2
      "backup/acme-database.sql.gz" "" "backup/acme-database.sql.gz"
      rfl rfl (by decide)).2.1,
   ((runBackup_spec envBackupFail "COMP-1" "acme.pixone.com").2.2.1
      1 "" "disk full" rfl rfl (by decide)).1,
   ((runBackup_spec envBackupFail "COMP-1" "acme.pixone.com").2.2.1
      1 "" "disk full" rfl rfl (by decide)).2⟩

/-! ### Subscription quota (C2) -/

lemma filter_ne_map_update (l : List Company) (cid : String)
    (f : Company → Company) (hf : ∀ x, (f x).name = x.name) :
    ((l.map (fun x => if x.name = cid then f x else x)).filter
      (fun x => x.name ≠ cid))
      = l.filter (fun x => x.name ≠ cid) := by
  induction l with
  | nil => rfl
  | cons x rest ih =>
    rw [List.map_cons]
    by_cases hn : x.name = cid
    · rw [if_pos hn, List.filter_cons_of_neg, List.filter_cons_of_neg]
      · exact ih
      · simp [hn]
      · simp [hf, hn]
    · rw [if_neg hn, List.filter_cons_of_pos, List.filter_cons_of_pos]
      · rw [ih]
      · simpa using hn
      · simpa using hn

lemma count_split (l : List Company) (cid : String) (q : Company → Bool)
    (c : Company) (hu : l.Pairwise (fun a b => a.name ≠ b.name))
    (hc : c ∈ l) (hcname : c.name = cid) (hqc : q c = true) :
    (l.filter q).length
      = ((l.filter (fun x => x.name ≠ cid)).filter q).length + 1 := by
  induction l with
  | nil => cases hc
  | cons y rest ih =>
    rcases List.mem_cons.1 hc with rfl | hcr
    · have hrest : rest.filter (fun x => x.name ≠ cid) = rest := by
        rw [List.filter_eq_self]
        intro a ha
        have hne := (List.pairwise_cons.1 hu).1 a ha
        simp only [decide_eq_true_eq]
        intro heq
        exact hne (hcname.trans heq.symm)
      rw [List.filter_cons_of_pos hqc,
        List.filter_cons_of_neg (by simp [hcname]), hrest]
      simp
    · have hyne : y.name ≠ cid := by
        have hne := (List.pairwise_cons.1 hu).1 c hcr
        intro heq
        exact hne (heq.trans hcname.symm)
      have ih' := ih (List.pairwise_cons.1 hu).2 hcr
      have hinner : List.filter (fun x => decide (x.name ≠ cid)) (y :: rest)
          = y :: List.filter (fun x => decide (x.name ≠ cid)) rest :=
        List.filter_cons_of_pos (by simpa using hyne)
      rw [hinner]
      by_cases hqy : q y = true
      · rw [List.filter_cons_of_pos hqy, List.filter_cons_of_pos hqy]
        simp only [List.length_cons]
        omega
      · rw [List.filter_cons_of_neg (by simpa using hqy),
          List.filter_cons_of_neg (by simpa using hqy)]
        exact ih'

lemma deleteCompany_companies (env : Env) (db : Db) (now : Nat)
    (cid : String) (c : Company) (hc : getCompany db cid = some c) :
    ((deleteCompany env db now cid true).1).db.companies
      = db.companies.filter (fun x => x.name ≠ cid) := by
  simp only [deleteCompany]
  rw [hc]
  dsimp only [updateCompany]
  exact filter_ne_map_update _ _ _ (fun x => rfl)

lemma countLive_after_delete (env : Env) (db : Db) (now : Nat)
    (cid sid : String) (c : Company) (hu : namesUnique db)
    (hc : getCompany db cid = some c) (hcsub : c.subscriptionId = sid)
    (hclive : isLiveStatus c.status = true) :
    countLiveCompanies ((deleteCompany env db now cid true).1).db sid none + 1
      = countLiveCompanies db sid none := by
  unfold countLiveCompanies
  rw [deleteCompany_companies env db now cid c hc]
  exact (count_split db.companies cid _ c hu (getCompany_mem hc)
    (getCompany_name hc) (by simp [hcsub, hclive])).symm

/-- C2: for a resolved subscription whose plan allows `max_companies = N`
(with 0, the unset Frappe Int field, defaulting to 1), the quota check of
`create_company` rejects exactly when N or more tenants in status outside
{Deleted, Failed} exist under the subscription; with fewer it passes; a
creation attempt that reaches the quota check with N or more live tenants
is rejected as a quota validation error with nothing inserted or
enqueued; and deleting one counted tenant lowers the live count by one
(so an attempt right after a deletion passes the check again). -/
theorem quota_boundary (db : Db) (sid : String) (sub : Subscription)
    (plan : Plan) (hsub : getSubscription db sid = some sub)
    (hplan : getPlan db sub.planName = some plan) :
    ((validateCompanyQuota db sid none).1 = false ↔
      (if plan.maxCompanies = 0 then 1 else plan.maxCompanies)
        ≤ countLiveCompanies db sid none)
    ∧ (countLiveCompanies db sid none
        < (if plan.maxCompanies = 0 then 1 else plan.maxCompanies) →
      validateCompanyQuota db sid none = (true, ""))
    ∧ (∀ a : CreateArgs, a.user ≠ "Guest" → a.subdomain ≠ "" →
        (validateSubdomain db (normalizeSlug a.subdomain)).1 = true →
        3 ≤ (pyStrip a.companyName).length →
        validateSubscription db a.user a.subscriptionId = (true, "", some sid) →
        (if plan.maxCompanies = 0 then 1 else plan.maxCompanies)
          ≤ countLiveCompanies db sid none →
        (createCompany db a).response
            = .validationError (validateCompanyQuota db sid none).2
          ∧ (createCompany db a).db = db ∧ (createCompany db a).jobs = [])
    ∧ (∀ env now cid c, namesUnique db → getCompany db cid = some c →
        c.subscriptionId = sid → isLiveStatus c.status = true →
        countLiveCompanies ((deleteCompany env db now cid true).1).db sid
            none + 1
          = countLiveCompanies db sid none) := by
  have hquota : ∀ hge : (if plan.maxCompanies = 0 then 1
      else plan.maxCompanies) ≤ countLiveCompanies db sid none,
      (validateCompanyQuota db sid none).1 = false := by
    intro hge
    simp only [validateCompanyQuota]
    rw [hsub]
    dsimp only
    rw [hplan]
    dsimp only
    rw [if_pos hge]
  have hiff : (validateCompanyQuota db sid none).1 = false ↔
      (if plan.maxCompanies = 0 then 1 else plan.maxCompanies)
        ≤ countLiveCompanies db sid none := by
    constructor
    · intro hfalse
      by_contra hlt
      simp only [validateCompanyQuota] at hfalse
      rw [hsub] at hfalse
      dsimp only at hfalse
      rw [hplan] at hfalse
      dsimp only at hfalse
      rw [if_neg hlt] at hfalse
      exact absurd hfalse (by simp)
    · exact hquota
  refine ⟨hiff, ?_, ?_, ?_⟩
  · intro hlt
    simp only [validateCompanyQuota]
    rw [hsub]
    dsimp only
    rw [hplan]
    dsimp only
    rw [if_neg (by omega)]
  · intro a huser hsubd hsv hlen hvs hge
    have hq1 : (validateCompanyQuota db sid none).1 = false := hquota hge
    simp only [createCompany]
    rw [if_neg huser, if_neg hsubd, if_neg (not_not_intro hsv),
      if_neg (by omega), hvs]
    dsimp only
    rw [if_neg (by simp), if_pos (by simp [hq1])]
    exact ⟨rfl, rfl, rfl⟩
  · intro env now cid c hu hc hcsub hclive
    exact countLive_after_delete env db now cid sid c hu hc hcsub hclive

/-- C2 witness: with plan `basic` (`max_companies = 1`) and one live
company, the quota check rejects and a creation attempt on a fresh slug
is turned away with the store untouched; with zero live companies it
passes; deleting the one live company lowers the count from 1 to 0. -/
theorem quota_boundary_witness :
    (validateCompanyQuota dbActive "SUB-1" none).1 = false
    ∧ validateCompanyQuota db0 "SUB-1" none = (true, "")
    ∧ (createCompany dbActive argsD).response
        = .validationError (validateCompanyQuota dbActive "SUB-1" none).2
    ∧ (createCompany dbActive argsD).db = dbActive
    ∧ countLiveCompanies
          ((deleteCompany envOk dbActive 9 "COMP-1" true).1).db "SUB-1" none + 1
        = countLiveCompanies dbActive "SUB-1" none :=
  ⟨(quota_boundary dbActive "SUB-1" demoSub demoPlan rfl rfl).1.mpr (by decide),
   (quota_boundary db0 "SUB-1" demoSub demoPlan rfl rfl).2.1 (by decide),
   ((quota_boundary dbActive "SUB-1" demoSub demoPlan rfl rfl).2.2.1 argsD
      (by decide) (by decide) (by decide) (by decide) rfl (by decide)).1,
   ((quota_boundary dbActive "SUB-1" demoSub demoPlan rfl rfl).2.2.1 argsD
      (by decide) (by decide) (by decide) (by decide) rfl (by decide)).2.1,
   (quota_boundary dbActive "SUB-1" demoSub demoPlan rfl rfl).2.2.2 envOk 9
      "COMP-1" { compA with
        status := "Active", siteStatus := "Active" }
      (by decide) (by decide) (by decide) (by decide)⟩

end PixOne
